import Mathlib

/-!
# alumni_enc: encrypted chat client

A shallow embedding of `client/src/utils/cryptoUtils.js`, of the store in
`client/src/store/chatStore.js` and of the submit gate of
`client/src/pages/ResetPassword.jsx`, followed by theorems about them.

Conventions of the embedding:

* a `Uint8Array` is a `List Byte` with `Byte = Fin 256`;
* a JavaScript string is a `String`, or the `List Char` of its characters where
  the code works character by character;
* a JavaScript dictionary object (`{}` indexed by id) is an association list read
  with `dictGet` and written with `dictSet`; `undefined` is `none`;
* a call that can throw returns `Except JsError`; a `try`/`catch` is a match on it;
* platform services (WebCrypto, JSON, the random source, the clock, `uuidv4`, the
  HTTP client) are explicit arguments.
-/

namespace AlumniEnc

/-! ## Basic types -/

/-- Element of a `Uint8Array`. -/
abbrev Byte := Fin 256

/-- Exceptions that the embedded code paths can raise. -/
inductive JsError where
  | referenceError (name : String)
  | typeError (detail : String)
  | invalidCharacterError
  | operationError
  | syntaxError
  | requestFailed
  deriving DecidableEq

/-- Equality of results is decidable when it is for errors and values. -/
instance instDecidableEqExcept {ε α : Type} [DecidableEq ε] [DecidableEq α] :
    DecidableEq (Except ε α)
  | Except.ok a, Except.ok b =>
    if h : a = b then isTrue (by rw [h]) else isFalse (fun h2 => h (Except.ok.inj h2))
  | Except.error a, Except.error b =>
    if h : a = b then isTrue (by rw [h]) else isFalse (fun h2 => h (Except.error.inj h2))
  | Except.ok _, Except.error _ => isFalse (fun h => Except.noConfusion h)
  | Except.error _, Except.ok _ => isFalse (fun h => Except.noConfusion h)

/-- Handle of a WebCrypto `CryptoKey` (always truthy in JavaScript). -/
structure CryptoKey where
  handle : Nat
  deriving DecidableEq

/-- The object that is encrypted for one chat message: `{ text, mediaUrl }`. -/
structure Payload where
  text : String
  mediaUrl : Option String
  deriving DecidableEq

/-! ## Base64 as done by `btoa` and `atob` -/

/-- The 64 characters of the base64 alphabet, in value order. -/
def base64Alphabet : List Char :=
  "ABCDEFGHIJKLMNOPQRSTUVWXYZabcdefghijklmnopqrstuvwxyz0123456789+/".toList

/-- Character that stands for a six-bit value. -/
def sextetToChar (n : Nat) : Char := base64Alphabet.getD n 'A'

/-- Six-bit value of an alphabet character (64 for any other character). -/
def charToSextet (c : Char) : Nat := base64Alphabet.indexOf c

/-- Membership in the base64 alphabet. -/
def isBase64Char (c : Char) : Bool := base64Alphabet.contains c

/-- ASCII whitespace: TAB, LF, FF, CR and SPACE. -/
def isAsciiWhitespace (c : Char) : Bool :=
  c.toNat = 9 || c.toNat = 10 || c.toNat = 12 || c.toNat = 13 || c.toNat = 32

/-- Groups of three octets become groups of four six-bit values; a final group
of one or two octets becomes two or three values. -/
def encodeSextets : List Nat → List Nat
  | [] => []
  | [a] => [a / 4, a % 4 * 16]
  | [a, b] => [a / 4, a % 4 * 16 + b / 16, b % 16 * 4]
  | a :: b :: c :: rest =>
    a / 4 :: (a % 4 * 16 + b / 16) :: (b % 16 * 4 + c / 64) :: c % 64 :: encodeSextets rest

/-- Number of `=` signs that complete the last group of the output. -/
def base64Padding (n : Nat) : Nat := (3 - n % 3) % 3

/-- The function `btoa`: base64 of a string whose characters are all below 256;
any other string raises `InvalidCharacterError`. -/
def btoa (s : List Char) : Except JsError (List Char) :=
  if s.all (fun c => decide (c.toNat < 256)) then
    Except.ok ((encodeSextets (s.map Char.toNat)).map sextetToChar
      ++ List.replicate (base64Padding s.length) '=')
  else
    Except.error JsError.invalidCharacterError

/-- Groups of four six-bit values become three octets; a final group of two or
three values becomes one or two octets, its spare low bits being dropped. -/
def decodeSextets : List Nat → List Nat
  | s0 :: s1 :: s2 :: s3 :: rest =>
    (s0 * 4 + s1 / 16) :: (s1 % 16 * 16 + s2 / 4) :: (s2 % 4 * 64 + s3) :: decodeSextets rest
  | [s0, s1, s2] => [s0 * 4 + s1 / 16, s1 % 16 * 16 + s2 / 4]
  | [s0, s1] => [s0 * 4 + s1 / 16]
  | _ => []

/-- When the length is a multiple of four, one or two trailing `=` are removed. -/
def stripPadding (d : List Char) : List Char :=
  if d.length % 4 = 0 then
    if d.getLast? = some '=' then
      if d.dropLast.getLast? = some '=' then d.dropLast.dropLast else d.dropLast
    else d
  else d

/-- The function `atob` (forgiving base64 decode): whitespace is dropped, padding
is stripped, a length of 1 modulo 4 or a character outside the alphabet raises
`InvalidCharacterError`, and the octets come back as characters. -/
def atob (s : List Char) : Except JsError (List Char) :=
  let d := stripPadding (s.filter (fun c => !isAsciiWhitespace c))
  if d.length % 4 = 1 then Except.error JsError.invalidCharacterError
  else if d.all isBase64Char then
    Except.ok ((decodeSextets (d.map charToSextet)).map Char.ofNat)
  else Except.error JsError.invalidCharacterError

/-! ## `cryptoUtils.js` -/

/-- Platform services used by `encryptMessage` and `decryptMessage`:
`crypto.subtle.encrypt` and `crypto.subtle.decrypt` for AES-GCM (key, iv, data),
`TextEncoder.encode ∘ JSON.stringify` and `JSON.parse ∘ TextDecoder.decode`. -/
structure Platform where
  subtleEncrypt : CryptoKey → List Byte → List Byte → Except JsError (List Byte)
  subtleDecrypt : CryptoKey → List Byte → List Byte → Except JsError (List Byte)
  encodeJson : Payload → List Byte
  parseJson : List Byte → Except JsError Payload

/-- The expression `String.fromCharCode.apply(null, bytes)`. -/
def fromCharCode (bytes : List Byte) : List Char :=
  bytes.map (fun b => Char.ofNat b.val)

/-- The expression `new Uint8Array(str.split('').map(c => c.charCodeAt(0)))`. -/
def toUint8Array (str : List Char) : List Byte :=
  str.map (fun c => Fin.ofNat c.toNat)

/-- The function `encryptMessage(message, sharedKey)`; `iv` is the value drawn by
`crypto.getRandomValues(new Uint8Array(12))`. -/
def encryptMessage (P : Platform) (iv : List Byte) (message : Payload)
    (sharedKey : CryptoKey) : Except JsError String := do
  let encodedMessage := P.encodeJson message
  let encrypted ← P.subtleEncrypt sharedKey iv encodedMessage
  let ivAndEncrypted := iv ++ encrypted
  let b64 ← btoa (fromCharCode ivAndEncrypted)
  pure (String.mk b64)

/-- The function `decryptMessage(encryptedData, sharedKey)`. -/
def decryptMessage (P : Platform) (encryptedData : String)
    (sharedKey : CryptoKey) : Except JsError Payload := do
  let bin ← atob encryptedData.data
  let data := toUint8Array bin
  let iv := data.take 12
  let encrypted := data.drop 12
  let decrypted ← P.subtleDecrypt sharedKey iv encrypted
  P.parseJson decrypted



/-! ## Dictionaries -/

/-- Value stored under key `k`, `none` for `undefined`. -/
def dictGet {α : Type} : List (String × α) → String → Option α
  | [], _ => none
  | (k1, v) :: rest, k => if k1 = k then some v else dictGet rest k

/-- The object `{ ...d, [k]: v }` (and the assignment `d[k] = v` on a copy): an
existing key keeps its place and takes the new value, a new key goes last. -/
def dictSet {α : Type} : List (String × α) → String → α → List (String × α)
  | [], k, v => [(k, v)]
  | (k1, v1) :: rest, k, v =>
    if k1 = k then (k, v) :: rest else (k1, v1) :: dictSet rest k v

/-! ## Store data -/

/-- The `user` of the auth store, as far as the chat store reads it. -/
structure AuthUser where
  id : String
  name : String
  avatarUrl : Option String
  deriving DecidableEq

/-- The `sender` object of a message. -/
structure Sender where
  _id : String
  name : String
  avatarUrl : Option String
  deriving DecidableEq

/-- A message as held in `messages` and as carried by events and history pages.
An absent property is `none`. For a history entry `text` holds the ciphertext
until it is decrypted; an inbound event carries it in `encryptedContent`. -/
structure Message where
  _id : String
  tempId : Option String
  roomId : String
  sender : Option Sender
  text : Option String
  mediaUrl : Option String
  createdAt : String
  status : Option String
  encryptedContent : Option String
  deriving DecidableEq

/-- A room record, also the shape of a `roomUpdated` event. -/
structure Room where
  _id : String
  name : Option String
  isGroup : Option Bool
  members : Option (List String)
  admins : Option (List String)
  lastActivity : Option String
  unreadCount : Option Nat
  unreadCounts : Option (List (String × Nat))
  deriving DecidableEq

/-- Handle of the socket.io connection. -/
structure Socket where
  id : Nat
  deriving DecidableEq

/-- The state created by `create((set, get) => ({ ... }))`. -/
structure ChatState where
  socket : Option Socket
  rooms : List Room
  currentRoom : Option Room
  messages : List Message
  onlineUsers : List String
  loading : Bool
  unreadCounts : List (String × Nat)
  typingUsers : List (String × List String)
  messageStatus : List (String × String)
  sharedKeys : List (String × CryptoKey)
  deriving DecidableEq

/-- What a handler does besides changing the store. -/
inductive Effect where
  | emitSendMessage (roomId encryptedContent tempId : String)
  | markMessagesAsRead (roomId : String) (messageIds : List String)
  | toast (text : String)
  | toastError (text : String)
  | consoleWarn (text : String)
  | consoleError (text : String)
  | consoleLog (text : String)
  | emit (event : String) (argument : String)
  | callLoadMessages (roomId : String)
  deriving DecidableEq

/-- The object `{ success }` returned by an intent. -/
structure Outcome where
  success : Bool
  deriving DecidableEq

/-- Truthiness of a string-valued property that may be absent. -/
def truthy : Option String → Bool
  | some str => str != ""
  | none => false

/-- String conversion of an argument that may be `undefined`. -/
def toJsString : Option String → String
  | some str => str
  | none => "undefined"

/-- `Array.prototype.map` with a callback that may throw: the first exception
ends the traversal. -/
def arrayMap {α β : Type} (f : α → Except JsError β) : List α → Except JsError (List β)
  | [] => Except.ok []
  | a :: rest =>
    match f a with
    | Except.error e => Except.error e
    | Except.ok b =>
      match arrayMap f rest with
      | Except.error e => Except.error e
      | Except.ok bs => Except.ok (b :: bs)

/-! ## `socket.on("newMessage")`, lines 86-162 -/

/-- Evaluation of the identifier `finalMessage` inside the `newMessage` handler.
The handler declares `decryptedMessage`; nothing in `chatStore.js` (handler,
store closure, module scope, imports) declares `finalMessage`, so reading it
raises `ReferenceError`. -/
def finalMessage : Except JsError Message :=
  Except.error (JsError.referenceError "finalMessage")

/-- The updater given to `set` at lines 124-139, run on the store `state` of that
moment for the event `message`. -/
def newMessageUpdater (state : ChatState) (message : Message) : Except JsError ChatState :=
  let optimisticMessageExists :=
    state.messages.any (fun m => truthy m.tempId && decide (m.tempId = message.tempId))
  if optimisticMessageExists then
    match arrayMap (fun m => if m.tempId = message.tempId then finalMessage else Except.ok m)
        state.messages with
    | Except.error e => Except.error e
    | Except.ok msgs => Except.ok { state with messages := msgs }
  else
    match finalMessage with
    | Except.error e => Except.error e
    | Except.ok fm => Except.ok { state with messages := state.messages ++ [fm] }

/-- Lines 124-139 again, with the value of the identifier `finalMessage` taken as an
argument: `Except.error` when reading it throws, `Except.ok fm` when a declaration
binds it to `fm`. The source declares none, so the handler runs
`newMessageUpdater`, which is this function at `finalMessage`. -/
def newMessageUpdaterWith (finalMessageValue : Except JsError Message) (state : ChatState)
    (message : Message) : Except JsError ChatState :=
  let optimisticMessageExists :=
    state.messages.any (fun m => truthy m.tempId && decide (m.tempId = message.tempId))
  if optimisticMessageExists then
    match arrayMap
        (fun m => if m.tempId = message.tempId then finalMessageValue else Except.ok m)
        state.messages with
    | Except.error e => Except.error e
    | Except.ok msgs => Except.ok { state with messages := msgs }
  else
    match finalMessageValue with
    | Except.error e => Except.error e
    | Except.ok fm => Except.ok { state with messages := state.messages ++ [fm] }

/-- The body of the `try` block of the handler (lines 97-156) with the key found. -/
def newMessageTry (P : Platform) (s : ChatState) (message : Message)
    (sharedKey : CryptoKey) : Except JsError (ChatState × List Effect) := do
  let currentRoom := s.currentRoom
  let decryptedPayload ← decryptMessage P (toJsString message.encryptedContent) sharedKey
  let decryptedMessage : Message :=
    { message with
      text := some decryptedPayload.text
      mediaUrl := decryptedPayload.mediaUrl
      encryptedContent := none }
  let s1 ← newMessageUpdater s message
  let fm ← finalMessage
  let markRead :=
    if currentRoom.map (fun r => r._id) = some fm.roomId then
      [Effect.markMessagesAsRead fm.roomId [fm._id]]
    else []
  let room := s1.rooms.find? (fun r => decide (r._id = decryptedMessage.roomId))
  let notify :=
    if room.isSome ∧ currentRoom.map (fun r => r._id) ≠ some decryptedMessage.roomId then
      let senderName :=
        match decryptedMessage.sender with
        | some sender => if sender.name = "" then "Someone" else sender.name
        | none => "Someone"
      let messagePreview :=
        if truthy decryptedMessage.text then toJsString decryptedMessage.text else "Shared media"
      [Effect.toast (senderName ++ ": " ++ messagePreview)]
    else []
  pure (s1, markRead ++ notify)

/-- The `newMessage` handler: no key, warn and return; otherwise run the `try`
block, and on any exception log `Decryption failed!` and leave the store as the
exception left it. -/
def onNewMessage (P : Platform) (s : ChatState) (message : Message) : ChatState × List Effect :=
  match dictGet s.sharedKeys message.roomId with
  | none =>
    (s, [Effect.consoleWarn ("No shared key for room " ++ message.roomId ++ ". Cannot decrypt.")])
  | some sharedKey =>
    match newMessageTry P s message sharedKey with
    | Except.ok r => r
    | Except.error _ => (s, [Effect.consoleError "Decryption failed!"])

/-! ## `sendMessage`, lines 483-530 -/

/-- The object `optimisticMessage` of lines 497-505. -/
def optimisticMessage (currentRoom : Room) (currentUser : AuthUser)
    (text tempId now : String) : Message :=
  { _id := tempId
    tempId := some tempId
    roomId := currentRoom._id
    sender := some
      { _id := currentUser.id, name := currentUser.name, avatarUrl := currentUser.avatarUrl }
    text := some text
    mediaUrl := none
    createdAt := now
    status := some "sending"
    encryptedContent := none }

/-- Where `sendMessage` stands when its synchronous part (lines 484-508) is over:
it has finished (returned `undefined`, returned an outcome, or thrown) without
touching the store, or it has stored the optimistic entry and awaits
`encryptMessage`. -/
inductive SendSync where
  | done (returned : Except JsError (Option Outcome)) (effects : List Effect)
  | awaiting (state : ChatState) (socket : Socket) (currentRoom : Room) (sharedKey : CryptoKey)
  deriving DecidableEq

/-- Lines 484-508; `tempId` is the value of `uuidv4()`, `now` the value of
`new Date().toISOString()`, `currentUser` the `user` of the auth store. -/
def sendMessageSync (s : ChatState) (currentUser : Option AuthUser)
    (text tempId now : String) : SendSync :=
  match s.socket, s.currentRoom with
  | some socket, some currentRoom =>
    match dictGet s.sharedKeys currentRoom._id with
    | none =>
      SendSync.done (Except.ok (some { success := false }))
        [Effect.toastError "Secure session not established."]
    | some sharedKey =>
      match currentUser with
      | none =>
        SendSync.done (Except.error (JsError.typeError "currentUser is null")) []
      | some user =>
        SendSync.awaiting
          { s with messages := s.messages ++ [optimisticMessage currentRoom user text tempId now] }
          socket currentRoom sharedKey
  | _, _ => SendSync.done (Except.ok none) []

/-- What a finished `sendMessage` leaves: the store, the effects, and the value the
promise settles with (`ok none` for `undefined`, `error` for a rejection). -/
structure SendResult where
  state : ChatState
  effects : List Effect
  returned : Except JsError (Option Outcome)
  deriving DecidableEq

/-- Lines 510-529, resumed on the store `atResume` of the moment `encryptMessage`
settles. -/
def sendMessageResume (P : Platform) (iv : List Byte) (atResume : ChatState)
    (currentRoom : Room) (sharedKey : CryptoKey) (text tempId : String) : SendResult :=
  let messagePayload : Payload := { text := text, mediaUrl := none }
  match encryptMessage P iv messagePayload sharedKey with
  | Except.ok encryptedMessage =>
    { state := atResume
      effects := [Effect.emitSendMessage currentRoom._id encryptedMessage tempId]
      returned := Except.ok (some { success := true }) }
  | Except.error _ =>
    { state := { atResume with messages := atResume.messages.filter (fun m => m._id != tempId) }
      effects := [Effect.toastError "Failed to send message"]
      returned := Except.ok (some { success := false }) }

/-- The whole of `sendMessage`; `during` is what other handlers do to the store
while `encryptMessage` is awaited (`id` when nothing else runs). -/
def sendMessage (P : Platform) (iv : List Byte) (currentUser : Option AuthUser)
    (tempId now : String) (during : ChatState → ChatState) (s : ChatState)
    (text : String) : SendResult :=
  match sendMessageSync s currentUser text tempId now with
  | SendSync.done returned effects => { state := s, effects := effects, returned := returned }
  | SendSync.awaiting s1 _ currentRoom sharedKey =>
    sendMessageResume P iv (during s1) currentRoom sharedKey text tempId

/-! ## `loadMessages`, lines 338-391 -/

/-- One turn of the loop of lines 350-361: the message with its decrypted `text`
and `mediaUrl`, or with the placeholder when `decryptMessage` throws. -/
def decryptOrPlaceholder (P : Platform) (sharedKey : CryptoKey) (msg : Message) : Message :=
  match decryptMessage P (toJsString msg.text) sharedKey with
  | Except.ok decryptedPayload =>
    { msg with text := some decryptedPayload.text, mediaUrl := decryptedPayload.mediaUrl }
  | Except.error _ => { msg with text := some "⚠️ Could not decrypt message." }

/-- Lines 345-365: the value of `decryptedMessages` for the fetched page, given the
`sharedKeys` read by `get()` after the fetch. -/
def decryptHistory (P : Platform) (sharedKeys : List (String × CryptoKey)) (roomId : String)
    (encryptedMessages : List Message) : List Message :=
  match dictGet sharedKeys roomId with
  | some sharedKey => encryptedMessages.map (decryptOrPlaceholder P sharedKey)
  | none =>
    encryptedMessages.map (fun msg => { msg with text := some "⚠️ Decryption key not found." })

/-- Lines 367-390, run on the store `state` of the moment decryption is over. The
condition of line 374 reads the identifier `messages`, which `loadMessages` does
not declare: for `page === 1` it raises `ReferenceError`, caught at line 387; for
any other page `&&` stops before reading it. -/
def loadMessagesApply (state : ChatState) (page : Nat) (decryptedMessages : List Message) :
    ChatState × List Effect :=
  let s1 : ChatState :=
    { state with
      messages := if page = 1 then decryptedMessages else decryptedMessages ++ state.messages
      loading := false }
  if page = 1 then
    ({ s1 with loading := false }, [Effect.toastError "Failed to load messages"])
  else
    (s1, [])

/-- The whole of `loadMessages(roomId, page)`; `response` is what `axios.get`
settles with (the `messages` of the body, or a rejection), `afterFetch` and
`afterDecrypt` are what other handlers do to the store while the fetch and the
decryptions are awaited. -/
def loadMessages (P : Platform) (afterFetch afterDecrypt : ChatState → ChatState)
    (s : ChatState) (roomId : String) (page : Nat)
    (response : Except JsError (List Message)) : ChatState × List Effect :=
  let s0 : ChatState := { s with loading := true }
  match response with
  | Except.error _ =>
    ({ afterFetch s0 with loading := false }, [Effect.toastError "Failed to load messages"])
  | Except.ok encryptedMessages =>
    let s1 := afterFetch s0
    let decryptedMessages := decryptHistory P s1.sharedKeys roomId encryptedMessages
    loadMessagesApply (afterDecrypt s1) page decryptedMessages

/-! ## The other socket handlers, lines 165-214 -/

/-- The object `{ ...room, ...updatedRoom }`: a property of `updatedRoom` wins
where it is present. -/
def mergeRoom (room updatedRoom : Room) : Room :=
  { _id := updatedRoom._id
    name := updatedRoom.name.orElse (fun _ => room.name)
    isGroup := updatedRoom.isGroup.orElse (fun _ => room.isGroup)
    members := updatedRoom.members.orElse (fun _ => room.members)
    admins := updatedRoom.admins.orElse (fun _ => room.admins)
    lastActivity := updatedRoom.lastActivity.orElse (fun _ => room.lastActivity)
    unreadCount := updatedRoom.unreadCount.orElse (fun _ => room.unreadCount)
    unreadCounts := updatedRoom.unreadCounts.orElse (fun _ => room.unreadCounts) }

/-- The value of `newUnreadCounts` at lines 168-173. -/
def newUnreadCounts (state : ChatState) (currentUser : Option AuthUser)
    (updatedRoom : Room) : List (String × Nat) :=
  let currentUserId := currentUser.map (fun u => u.id)
  match updatedRoom.unreadCounts with
  | some counts =>
    if truthy currentUserId then
      let countForCurrentUser := (dictGet counts (toJsString currentUserId)).getD 0
      dictSet state.unreadCounts updatedRoom._id countForCurrentUser
    else state.unreadCounts
  | none => state.unreadCounts

/-- The `roomUpdated` handler, lines 165-184. -/
def onRoomUpdated (state : ChatState) (currentUser : Option AuthUser)
    (updatedRoom : Room) : ChatState :=
  let counts := newUnreadCounts state currentUser updatedRoom
  { state with
    rooms := state.rooms.map (fun room =>
      if room._id = updatedRoom._id then
        { mergeRoom room updatedRoom with unreadCount := dictGet counts updatedRoom._id }
      else room)
    unreadCounts := counts }

/-- The `messageRead` handler, lines 186-193. -/
def onMessageRead (state : ChatState) (messageId : String) : ChatState :=
  { state with messageStatus := dictSet state.messageStatus messageId "read" }

/-- The `messagesDelivered` handler, lines 195-203. -/
def onMessagesDelivered (state : ChatState) (messageIds : List String) : ChatState :=
  { state with
    messageStatus :=
      messageIds.foldl (fun newStatus messageId => dictSet newStatus messageId "delivered")
        state.messageStatus }

/-- The `data` of a `userTyping` event. -/
structure TypingEvent where
  roomId : String
  userId : String
  isTyping : Bool
  deriving DecidableEq

/-- The `userTyping` handler, lines 205-214. -/
def onUserTyping (state : ChatState) (data : TypingEvent) : ChatState :=
  let current := (dictGet state.typingUsers data.roomId).getD []
  { state with
    typingUsers := dictSet state.typingUsers data.roomId
      (if data.isTyping then current ++ [data.userId]
       else current.filter (fun id => id != data.userId)) }

/-- The function `getMessageStatus`, lines 618-620. -/
def getMessageStatus (state : ChatState) (messageId : String) : String :=
  match dictGet state.messageStatus messageId with
  | some status => if status = "" then "sent" else status
  | none => "sent"

/-! ## Presence: `userOnline` and `userOffline`, lines 216-228 -/

/-- The constructor `new Set(items)`: the items in order of first insertion, each
once. The field `onlineUsers` holds such a set as the list of its members. -/
def newSet (items : List String) : List String :=
  items.foldl (fun set item => if item ∈ set then set else set ++ [item]) []

/-- The method `Set.prototype.delete`. -/
def setDelete (set : List String) (item : String) : List String :=
  set.filter (fun member => member != item)

/-- The `userOnline` handler: `new Set([...state.onlineUsers, userId])`. -/
def onUserOnline (state : ChatState) (userId : String) : ChatState :=
  { state with onlineUsers := newSet (state.onlineUsers ++ [userId]) }

/-- The `userOffline` handler: a copy of the set with `userId` deleted. -/
def onUserOffline (state : ChatState) (userId : String) : ChatState :=
  { state with onlineUsers := setDelete (newSet state.onlineUsers) userId }

/-- The function `isUserOnline`, lines 626-628: `onlineUsers.has(userId)`. -/
def isUserOnline (state : ChatState) (userId : String) : Bool :=
  state.onlineUsers.contains userId

/-! ## `joinRoom` and `leaveRoom`, lines 284-303 -/

/-- The function `joinRoom(roomId)`. Its last statement calls `loadMessages(roomId)`,
which sets `loading` before its first `await`; the rest of that call is
`loadMessages` resumed later. -/
def joinRoom (s : ChatState) (roomId : String) : ChatState × List Effect :=
  match s.socket, s.rooms.find? (fun r => decide (r._id = roomId)) with
  | some _, some room =>
    ({ s with
        currentRoom := some room
        messages := []
        unreadCounts := dictSet s.unreadCounts roomId 0
        loading := true },
      [Effect.emit "joinRoom" roomId,
       Effect.consoleLog ("joinRoom: resetting unread count for room " ++ roomId),
       Effect.callLoadMessages roomId])
  | _, _ => (s, [])

/-- The function `leaveRoom()`. -/
def leaveRoom (s : ChatState) : ChatState × List Effect :=
  match s.socket, s.currentRoom with
  | some _, some currentRoom =>
    ({ s with currentRoom := none, messages := [] }, [Effect.emit "leaveRoom" currentRoom._id])
  | _, _ => (s, [])

/-! ## Key persistence: `loadSharedKeysFromSession` and `init` -/

/-- An exported key as stored in the session record (a JSON Web Key). -/
structure Jwk where
  k : String
  deriving DecidableEq

/-- Platform services used by `loadSharedKeysFromSession`: `JSON.parse` of the stored
record, giving its entries in `for ... in` order, and `crypto.subtle.importKey` for
an AES-GCM key. -/
structure KeyStorage where
  parseRecord : String → Except JsError (List (String × Jwk))
  importKey : Jwk → Except JsError CryptoKey

/-- The loop of lines 94-102 over the entries still to visit, `importedKeys` being
the object filled so far; a rejected `importKey` ends the function. -/
def importEntries (K : KeyStorage) :
    List (String × Jwk) → List (String × CryptoKey) → Except JsError (List (String × CryptoKey))
  | [], importedKeys => Except.ok importedKeys
  | (roomId, jwk) :: rest, importedKeys =>
    match K.importKey jwk with
    | Except.error e => Except.error e
    | Except.ok key => importEntries K rest (dictSet importedKeys roomId key)

/-- The function `loadSharedKeysFromSession()`; `storedKeys` is the value of
`sessionStorage.getItem('sharedKeys')`. -/
def loadSharedKeysFromSession (K : KeyStorage) (storedKeys : Option String) :
    Except JsError (List (String × CryptoKey)) :=
  if truthy storedKeys then
    match K.parseRecord (toJsString storedKeys) with
    | Except.error e => Except.error e
    | Except.ok parsedKeys => importEntries K parsedKeys []
  else Except.ok []

/-- The action `init`, lines 632-635: the store it leaves and how its promise
settles. -/
def init (K : KeyStorage) (storedKeys : Option String) (s : ChatState) :
    ChatState × Except JsError Unit :=
  match loadSharedKeysFromSession K storedKeys with
  | Except.ok sessionKeys => ({ s with sharedKeys := sessionKeys }, Except.ok ())
  | Except.error e => (s, Except.error e)

/-! ## `ResetPassword.jsx`, lines 27-60 -/

/-- One entry of `passwordRules`; a password is the sequence of its UTF-16 code
units, which is what `length` counts and what a regular expression without the
`u` flag matches against. -/
structure PasswordRule where
  label : String
  test : List Nat → Bool

/-- The array `passwordRules`, lines 27-33. -/
def passwordRules : List PasswordRule :=
  [ { label := "At least 8 characters", test := fun v => decide (v.length ≥ 8) },
    { label := "One uppercase letter", test := fun v => v.any (fun c => decide (65 ≤ c ∧ c ≤ 90)) },
    { label := "One lowercase letter",
      test := fun v => v.any (fun c => decide (97 ≤ c ∧ c ≤ 122)) },
    { label := "One digit", test := fun v => v.any (fun c => decide (48 ≤ c ∧ c ≤ 57)) },
    { label := "One special character",
      test := fun v => v.any (fun c =>
        !(decide (65 ≤ c ∧ c ≤ 90) || decide (97 ≤ c ∧ c ≤ 122) || decide (48 ≤ c ∧ c ≤ 57))) } ]

/-- The constant `isStrong`, line 34. -/
def isStrong (newPassword : List Nat) : Bool :=
  passwordRules.all (fun rule => rule.test newPassword)

/-- The component state that `handleSubmit` reads and writes. -/
structure FormState where
  otp : String
  newPassword : List Nat
  confirmPassword : List Nat
  error : String
  loading : Bool
  success : Bool
  deriving DecidableEq

/-- The body of the request to `/auth/reset-password`. -/
structure ResetRequest where
  email : String
  otp : String
  newPassword : List Nat
  deriving DecidableEq

/-- The function `handleSubmit`, lines 37-60: the component state it leaves and the
requests it has posted; `response` is what `axios.post` settles with (for a
rejection, the `message` of the response body if there is one). -/
def handleSubmit (email : String) (form : FormState) (response : Except (Option String) Unit) :
    FormState × List ResetRequest :=
  let form0 := { form with error := "" }
  if !isStrong form.newPassword then
    ({ form0 with error := "Password is not strong enough." }, [])
  else if form.newPassword ≠ form.confirmPassword then
    ({ form0 with error := "Passwords do not match." }, [])
  else
    let request : ResetRequest :=
      { email := email, otp := form.otp, newPassword := form.newPassword }
    match response with
    | Except.ok _ => ({ form0 with success := true, loading := false }, [request])
    | Except.error message =>
      ({ form0 with
          error := if truthy message then toJsString message else "An error occurred."
          loading := false },
        [request])

/-- The password condition in the words of the claim: at least 8 characters, one in
`A-Z`, one in `a-z`, one in `0-9` and one outside `[A-Za-z0-9]`. -/
def MeetsPasswordPolicy (v : List Nat) : Prop :=
  8 ≤ v.length
    ∧ (∃ c ∈ v, 65 ≤ c ∧ c ≤ 90)
    ∧ (∃ c ∈ v, 97 ≤ c ∧ c ≤ 122)
    ∧ (∃ c ∈ v, 48 ≤ c ∧ c ≤ 57)
    ∧ (∃ c ∈ v, ¬ ((65 ≤ c ∧ c ≤ 90) ∨ (97 ≤ c ∧ c ≤ 122) ∨ (48 ≤ c ∧ c ≤ 57)))

/-! ## Fixtures for concrete runs -/

/-- A stand-in platform for concrete runs: the cipher puts one octet derived from
the key in front of the data and checks it on the way back (a wrong key or an
empty input is rejected), the codec stores the characters of `text` as octets. -/
def testPlatform : Platform where
  subtleEncrypt := fun key _ data => Except.ok (Fin.ofNat key.handle :: data)
  subtleDecrypt := fun key _ data =>
    match data with
    | [] => Except.error JsError.operationError
    | tag :: rest =>
      if tag = Fin.ofNat key.handle then Except.ok rest else Except.error JsError.operationError
  encodeJson := fun payload => payload.text.data.map (fun c => Fin.ofNat c.toNat)
  parseJson := fun bytes =>
    Except.ok { text := String.mk (bytes.map (fun b => Char.ofNat b.val)), mediaUrl := none }

/-- An empty store. -/
def emptyState : ChatState :=
  { socket := none, rooms := [], currentRoom := none, messages := [], onlineUsers := [],
    loading := false, unreadCounts := [], typingUsers := [], messageStatus := [],
    sharedKeys := [] }

/-- A room record with nothing but its id. -/
def bareRoom (roomId : String) : Room :=
  { _id := roomId, name := none, isGroup := none, members := none, admins := none,
    lastActivity := none, unreadCount := none, unreadCounts := none }

/-- A message with nothing but its id, room and `text`. -/
def bareMessage (messageId roomId : String) (text : Option String) : Message :=
  { _id := messageId, tempId := none, roomId := roomId, sender := none, text := text,
    mediaUrl := none, createdAt := "", status := none, encryptedContent := none }

/-- Twelve octets standing for a drawn nonce. -/
def testIv : List Byte := [1, 2, 3, 4, 5, 6, 7, 8, 9, 10, 11, 12]

/-- A logged-in user. -/
def alice : AuthUser := { id := "u1", name := "Alice", avatarUrl := none }

/-- A store with a socket, the current room `R` and a shared key for `R`. -/
def roomState : ChatState :=
  { emptyState with
    socket := some { id := 1 }
    rooms := [bareRoom "R"]
    currentRoom := some (bareRoom "R")
    sharedKeys := [("R", { handle := 7 })] }

/-- The store `roomState` once `sendMessage("hello")` has stored its optimistic
entry with correlation id `t1`. -/
def sendingState : ChatState :=
  { roomState with
    messages := [optimisticMessage (bareRoom "R") alice "hello" "t1" "2024-05-01T10:00:00.000Z"] }

/-- The server's echo of that send: server id `srv1`, correlation id `t1`, status
`sent`, the payload `hello` encrypted under the key of `R`. -/
def echoEvent : Message :=
  { _id := "srv1"
    tempId := some "t1"
    roomId := "R"
    sender := some { _id := "u1", name := "Alice", avatarUrl := none }
    text := none
    mediaUrl := none
    createdAt := "2024-05-01T10:00:01.000Z"
    status := some "sent"
    encryptedContent := some "AQIDBAUGBwgJCgsMB2hlbGxv" }

/-- A message of another user in room `R`: server id `srv2`, no correlation id. -/
def peerEvent : Message :=
  { _id := "srv2"
    tempId := none
    roomId := "R"
    sender := some { _id := "u2", name := "Bob", avatarUrl := none }
    text := none
    mediaUrl := none
    createdAt := "2024-05-01T10:00:02.000Z"
    status := none
    encryptedContent := some "AQIDBAUGBwgJCgsMB2hlbGxv" }

/-- The object `decryptedMessage` that the handler builds for `peerEvent`. -/
def peerDecrypted : Message :=
  { peerEvent with text := some "hello", mediaUrl := none, encryptedContent := none }

/-- A fetched history page of room `R`: five entries whose `text` is ciphertext; the
third is corrupt, the others decrypt to `hello` under the key of `R`. -/
def historyPage : List Message :=
  [ bareMessage "h1" "R" (some "AQIDBAUGBwgJCgsMB2hlbGxv"),
    bareMessage "h2" "R" (some "AQIDBAUGBwgJCgsMB2hlbGxv"),
    bareMessage "h3" "R" (some "not base64!"),
    bareMessage "h4" "R" (some "AQIDBAUGBwgJCgsMB2hlbGxv"),
    bareMessage "h5" "R" (some "AQIDBAUGBwgJCgsMB2hlbGxv") ]

/-- The stand-in platform with a cipher that rejects every encryption. -/
def rejectingPlatform : Platform :=
  { testPlatform with subtleEncrypt := fun _ _ _ => Except.error JsError.operationError }

/-- A store with the rooms `R` and `Q` and local unread counters 9 and 2. -/
def twoRoomState : ChatState :=
  { emptyState with
    socket := some { id := 1 }
    rooms := [{ bareRoom "R" with unreadCount := some 9 }, { bareRoom "Q" with unreadCount := some 2 }]
    unreadCounts := [("R", 9), ("Q", 2)] }

/-- A `roomUpdated` event for room `R` whose per-user counters give 3 to `u1`. -/
def unreadUpdate : Room :=
  { bareRoom "R" with name := some "General", unreadCounts := some [("u2", 4), ("u1", 3)] }

/-- A store with the rooms `R` and `Q`, the current room `R` and a shared key for `R`. -/
def inRoomR : ChatState :=
  { twoRoomState with
    currentRoom := some { bareRoom "R" with unreadCount := some 9 }
    sharedKeys := [("R", { handle := 7 })] }

/-- A stand-in key storage: the record `R=good;Q=corrupt` has an entry for `R` that
imports and one for `Q` that does not, the record `R=good` has the first only, and
any other text does not parse. -/
def testKeyStorage : KeyStorage where
  parseRecord := fun record =>
    if record = "R=good;Q=corrupt" then
      Except.ok [("R", { k := "good" }), ("Q", { k := "corrupt" })]
    else if record = "R=good" then Except.ok [("R", { k := "good" })]
    else Except.error JsError.syntaxError
  importKey := fun jwk =>
    if jwk.k = "corrupt" then Except.error JsError.operationError
    else Except.ok { handle := jwk.k.length }

/-! ## Lemmas on base64 -/

theorem decodeSextets_encodeSextets (l : List Nat) (h : ∀ x ∈ l, x < 256) :
    decodeSextets (encodeSextets l) = l := by
  induction l using encodeSextets.induct with
  | case1 => rfl
  | case2 a =>
    have ha := h a (by simp)
    simp only [encodeSextets, decodeSextets]
    congr 1
    omega
  | case3 a b =>
    have ha := h a (by simp)
    have hb := h b (by simp)
    simp only [encodeSextets, decodeSextets]
    congr 1
    · omega
    · congr 1
      omega
  | case4 a b c rest ih =>
    have ha := h a (by simp)
    have hb := h b (by simp)
    have hc := h c (by simp)
    have hrest : ∀ x ∈ rest, x < 256 := fun x hx => h x (by simp [hx])
    simp only [encodeSextets, decodeSextets, ih hrest]
    congr 1
    · omega
    · congr 1
      · omega
      · congr 1
        omega

theorem encodeSextets_lt (l : List Nat) (h : ∀ x ∈ l, x < 256) :
    ∀ s ∈ encodeSextets l, s < 64 := by
  induction l using encodeSextets.induct with
  | case1 => simp [encodeSextets]
  | case2 a =>
    have ha := h a (by simp)
    intro s hs
    simp only [encodeSextets, List.mem_cons, List.mem_singleton, List.not_mem_nil, or_false] at hs
    omega
  | case3 a b =>
    have ha := h a (by simp)
    have hb := h b (by simp)
    intro s hs
    simp only [encodeSextets, List.mem_cons, List.mem_singleton, List.not_mem_nil, or_false] at hs
    omega
  | case4 a b c rest ih =>
    have ha := h a (by simp)
    have hb := h b (by simp)
    have hc := h c (by simp)
    have hrest : ∀ x ∈ rest, x < 256 := fun x hx => h x (by simp [hx])
    intro s hs
    simp only [encodeSextets, List.mem_cons] at hs
    rcases hs with hs | hs | hs | hs | hs
    · omega
    · omega
    · omega
    · omega
    · exact ih hrest s hs

theorem length_encodeSextets (l : List Nat) :
    (encodeSextets l).length + base64Padding l.length = 4 * ((l.length + 2) / 3) := by
  induction l using encodeSextets.induct with
  | case1 => rfl
  | case2 a => simp [encodeSextets, base64Padding]
  | case3 a b => simp [encodeSextets, base64Padding]
  | case4 a b c rest ih =>
    simp only [encodeSextets, List.length_cons, base64Padding] at ih ⊢
    omega

theorem sextetToChar_spec (n : Nat) (h : n < 64) :
    charToSextet (sextetToChar n) = n ∧ isBase64Char (sextetToChar n) = true
      ∧ sextetToChar n ≠ '=' ∧ isAsciiWhitespace (sextetToChar n) = false := by
  have key : ∀ k : Fin 64, charToSextet (sextetToChar k.val) = k.val
      ∧ isBase64Char (sextetToChar k.val) = true
      ∧ sextetToChar k.val ≠ '=' ∧ isAsciiWhitespace (sextetToChar k.val) = false := by
    decide
  exact key ⟨n, h⟩

set_option maxRecDepth 100000 in
theorem byte_char_roundtrip (b : Byte) :
    (Char.ofNat b.val).toNat = b.val ∧ (Fin.ofNat (Char.ofNat b.val).toNat : Byte) = b := by
  revert b
  decide

theorem stripPadding_append_replicate (xs : List Char) (p : Nat) (hp : p ≤ 2)
    (hlen : (xs.length + p) % 4 = 0) (hxs : ∀ c ∈ xs, c ≠ '=') :
    stripPadding (xs ++ List.replicate p '=') = xs := by
  have hlast : xs.getLast? ≠ some '=' := by
    intro hl
    exact hxs '=' (List.mem_of_getLast?_eq_some hl) rfl
  have hl : (xs ++ List.replicate p '=').length % 4 = 0 := by
    simpa using hlen
  unfold stripPadding
  rw [if_pos hl]
  interval_cases p
  · simp only [List.replicate_zero, List.append_nil]
    rw [if_neg hlast]
  · have h1 : List.replicate 1 '=' = ['='] := rfl
    rw [h1, List.getLast?_concat, if_pos rfl, List.dropLast_concat, if_neg hlast]
  · have h2 : xs ++ List.replicate 2 '=' = (xs ++ ['=']) ++ ['='] := by simp [List.replicate]
    rw [h2, List.getLast?_concat, if_pos rfl, List.dropLast_concat, List.getLast?_concat,
      if_pos rfl, List.dropLast_concat]

theorem charCodes_fromCharCode (bytes : List Byte) :
    (fromCharCode bytes).map Char.toNat = bytes.map (fun b => b.val) := by
  simp only [fromCharCode, List.map_map]
  apply List.map_congr_left
  intro b _
  exact (byte_char_roundtrip b).1

theorem toUint8Array_fromCharCode (bytes : List Byte) :
    toUint8Array (fromCharCode bytes) = bytes := by
  simp only [toUint8Array, fromCharCode, List.map_map]
  conv_rhs => rw [← List.map_id bytes]
  apply List.map_congr_left
  intro b _
  exact (byte_char_roundtrip b).2

theorem btoa_fromCharCode (bytes : List Byte) :
    btoa (fromCharCode bytes) = Except.ok
      ((encodeSextets (bytes.map (fun b => b.val))).map sextetToChar
        ++ List.replicate (base64Padding bytes.length) '=') := by
  have hall : (fromCharCode bytes).all (fun c => decide (c.toNat < 256)) = true := by
    simp only [fromCharCode, List.all_eq_true, List.mem_map, decide_eq_true_eq]
    rintro c ⟨b, _, rfl⟩
    rw [(byte_char_roundtrip b).1]
    exact b.isLt
  unfold btoa
  rw [if_pos hall, charCodes_fromCharCode]
  simp [fromCharCode]

theorem atob_encoded (bytes : List Byte) :
    atob ((encodeSextets (bytes.map (fun b => b.val))).map sextetToChar
        ++ List.replicate (base64Padding bytes.length) '=')
      = Except.ok (fromCharCode bytes) := by
  have hb : ∀ x ∈ bytes.map (fun b => b.val), x < 256 := by
    intro x hx
    obtain ⟨b, _, rfl⟩ := List.mem_map.1 hx
    exact b.isLt
  have hs := encodeSextets_lt _ hb
  have hlen := length_encodeSextets (bytes.map (fun b => b.val))
  rw [List.length_map] at hlen
  generalize hxs : (encodeSextets (bytes.map (fun b => b.val))).map sextetToChar = xs at *
  have hxlen : xs.length = (encodeSextets (bytes.map (fun b => b.val))).length := by
    rw [← hxs, List.length_map]
  have hspec : ∀ c ∈ xs, isBase64Char c = true ∧ c ≠ '=' ∧ isAsciiWhitespace c = false := by
    intro c hc
    rw [← hxs] at hc
    obtain ⟨n, hn, rfl⟩ := List.mem_map.1 hc
    exact (sextetToChar_spec n (hs n hn)).2
  have hp : base64Padding bytes.length ≤ 2 := by
    unfold base64Padding
    omega
  have hfilter : (xs ++ List.replicate (base64Padding bytes.length) '=').filter
      (fun c => !isAsciiWhitespace c) = xs ++ List.replicate (base64Padding bytes.length) '=' := by
    rw [List.filter_eq_self]
    intro c hc
    rcases List.mem_append.1 hc with hc | hc
    · simp [(hspec c hc).2.2]
    · rw [List.eq_of_mem_replicate hc]
      decide
  have hstrip := stripPadding_append_replicate xs (base64Padding bytes.length) hp
    (by rw [hxlen, hlen]; omega) (fun c hc => (hspec c hc).2.1)
  have hmod : ¬ xs.length % 4 = 1 := by
    rw [hxlen]
    omega
  have hall : xs.all isBase64Char = true := by
    rw [List.all_eq_true]
    exact fun c hc => (hspec c hc).1
  have hdec : xs.map charToSextet = encodeSextets (bytes.map (fun b => b.val)) := by
    rw [← hxs, List.map_map]
    conv_rhs => rw [← List.map_id (encodeSextets (bytes.map (fun b => b.val)))]
    apply List.map_congr_left
    intro n hn
    exact (sextetToChar_spec n (hs n hn)).1
  unfold atob
  simp only [hfilter, hstrip, if_neg hmod, hall, if_true, hdec,
    decodeSextets_encodeSextets _ hb]
  simp [fromCharCode]

theorem atob_btoa_fromCharCode (bytes : List Byte) :
    ∃ b64, btoa (fromCharCode bytes) = Except.ok b64
      ∧ atob b64 = Except.ok (fromCharCode bytes) :=
  ⟨_, btoa_fromCharCode bytes, atob_encoded bytes⟩

/-! ## The encryption round trip -/

/-- C4. For every payload, key and 12-byte nonce: when AES-GCM encryption of the
serialised payload yields `ct`, AES-GCM decryption of `ct` under the same key and
nonce gives the serialised payload back, and parsing the serialised payload gives
the payload, `encryptMessage` returns a base64 string that `decryptMessage` turns
back into the payload; that string decodes and splits into exactly the nonce and
`ct`. -/
theorem decryptMessage_encryptMessage (P : Platform) (iv : List Byte) (message : Payload)
    (sharedKey : CryptoKey) (ct : List Byte)
    (hiv : iv.length = 12)
    (henc : P.subtleEncrypt sharedKey iv (P.encodeJson message) = Except.ok ct)
    (hdec : P.subtleDecrypt sharedKey iv ct = Except.ok (P.encodeJson message))
    (hjson : P.parseJson (P.encodeJson message) = Except.ok message) :
    ∃ encryptedData, encryptMessage P iv message sharedKey = Except.ok encryptedData
      ∧ decryptMessage P encryptedData sharedKey = Except.ok message
      ∧ (atob encryptedData.data).map
          (fun bin => ((toUint8Array bin).take 12, (toUint8Array bin).drop 12))
        = Except.ok (iv, ct) := by
  obtain ⟨b64, hb, ha⟩ := atob_btoa_fromCharCode (iv ++ ct)
  have htake : (iv ++ ct).take 12 = iv := by
    rw [← hiv]
    exact List.take_left' rfl
  have hdrop : (iv ++ ct).drop 12 = ct := by
    rw [← hiv]
    exact List.drop_left' rfl
  refine ⟨String.mk b64, ?_, ?_, ?_⟩
  · simp only [encryptMessage, henc, hb, bind, Except.bind, pure, Except.pure]
  · simp only [decryptMessage, ha, bind, Except.bind, toUint8Array_fromCharCode, htake, hdrop,
      hdec, hjson]
  · simp only [ha, Except.map, toUint8Array_fromCharCode, htake, hdrop]

set_option maxRecDepth 100000 in
theorem decryptMessage_encryptMessage_witness :
    ∃ encryptedData,
      encryptMessage testPlatform testIv { text := "hello", mediaUrl := none } { handle := 7 }
        = Except.ok encryptedData
      ∧ decryptMessage testPlatform encryptedData { handle := 7 }
        = Except.ok { text := "hello", mediaUrl := none }
      ∧ (atob encryptedData.data).map
          (fun bin => ((toUint8Array bin).take 12, (toUint8Array bin).drop 12))
        = Except.ok (testIv, [7, 104, 101, 108, 108, 111]) :=
  decryptMessage_encryptMessage testPlatform testIv { text := "hello", mediaUrl := none }
    { handle := 7 } [7, 104, 101, 108, 108, 111] (by decide) (by decide) (by decide) (by decide)

/-! ## Lemmas on dictionaries -/

theorem dictGet_dictSet_same {α : Type} (d : List (String × α)) (k : String) (v : α) :
    dictGet (dictSet d k v) k = some v := by
  induction d with
  | nil => simp [dictSet, dictGet]
  | cons p rest ih =>
    obtain ⟨k1, v1⟩ := p
    by_cases h : k1 = k
    · simp [dictSet, dictGet, h]
    · simp [dictSet, dictGet, h, ih]

theorem dictGet_dictSet_other {α : Type} (d : List (String × α)) (k k2 : String) (v : α)
    (hne : k2 ≠ k) : dictGet (dictSet d k v) k2 = dictGet d k2 := by
  induction d with
  | nil => simp [dictSet, dictGet, Ne.symm hne]
  | cons p rest ih =>
    obtain ⟨k1, v1⟩ := p
    by_cases h : k1 = k
    · subst h
      simp [dictSet, dictGet, Ne.symm hne]
    · by_cases h2 : k1 = k2
      · subst h2
        simp [dictSet, dictGet, h]
      · simp [dictSet, dictGet, h, h2, ih]

theorem dictSet_dictSet_same {α : Type} (d : List (String × α)) (k : String) (v w : α) :
    dictSet (dictSet d k v) k w = dictSet d k w := by
  induction d with
  | nil => simp [dictSet]
  | cons p rest ih =>
    obtain ⟨k1, v1⟩ := p
    by_cases h : k1 = k
    · simp [dictSet, h]
    · simp [dictSet, h, ih]

/-! ## The `newMessage` handler -/

theorem arrayMap_throws {α : Type} (c : α → Bool) (e : JsError) (l : List α)
    (h : ∃ a ∈ l, c a = true) :
    arrayMap (fun a => if c a = true then Except.error e else Except.ok a) l
      = Except.error e := by
  induction l with
  | nil => simp at h
  | cons a rest ih =>
    by_cases ha : c a = true
    · simp [arrayMap, ha]
    · have hrest : ∃ b ∈ rest, c b = true := by
        obtain ⟨b, hb, hcb⟩ := h
        rcases List.mem_cons.1 hb with rfl | hb
        · exact absurd hcb ha
        · exact ⟨b, hb, hcb⟩
      simp [arrayMap, ha, ih hrest]

theorem newMessageUpdater_throws (state : ChatState) (message : Message) :
    newMessageUpdater state message
      = Except.error (JsError.referenceError "finalMessage") := by
  unfold newMessageUpdater
  by_cases hex : state.messages.any
      (fun m => truthy m.tempId && decide (m.tempId = message.tempId)) = true
  · have hmem : ∃ m ∈ state.messages, decide (m.tempId = message.tempId) = true := by
      obtain ⟨m, hm, hc⟩ := List.any_eq_true.1 hex
      exact ⟨m, hm, (Bool.and_eq_true _ _ ▸ hc).2⟩
    have hthrow := arrayMap_throws (fun m : Message => decide (m.tempId = message.tempId))
      (JsError.referenceError "finalMessage") state.messages hmem
    simp only [decide_eq_true_eq] at hthrow
    simp only [hex, if_true, finalMessage, hthrow]
  · simp only [hex, finalMessage]
    rfl

theorem newMessageTry_throws (P : Platform) (s : ChatState) (message : Message)
    (sharedKey : CryptoKey) : ∃ e, newMessageTry P s message sharedKey = Except.error e := by
  unfold newMessageTry
  cases hd : decryptMessage P (toJsString message.encryptedContent) sharedKey with
  | error e => exact ⟨e, by simp [bind, Except.bind]⟩
  | ok payload =>
    exact ⟨JsError.referenceError "finalMessage",
      by simp [bind, Except.bind, newMessageUpdater_throws]⟩

theorem onNewMessage_state (P : Platform) (s : ChatState) (message : Message) :
    (onNewMessage P s message).1 = s := by
  unfold onNewMessage
  cases hk : dictGet s.sharedKeys message.roomId with
  | none => rfl
  | some sharedKey =>
    obtain ⟨e, he⟩ := newMessageTry_throws P s message sharedKey
    simp [he]

/-- C1, the code at the failing input. The store holds the optimistic entry of
`sendMessage("hello")` with correlation id `t1`; the echo event carries `tempId`
`t1`, the server id `srv1` and a ciphertext that decrypts to `hello`. The handler
leaves `messages` as it was: one entry, still with the temporary id and status
`sending`; no entry carries the server id, none has status `sent`. -/
theorem newMessage_echo_leaves_optimistic_entry :
    sendMessageSync roomState (some alice) "hello" "t1" "2024-05-01T10:00:00.000Z"
        = SendSync.awaiting sendingState { id := 1 } (bareRoom "R") { handle := 7 }
      ∧ decryptMessage testPlatform (toJsString echoEvent.encryptedContent) { handle := 7 }
        = Except.ok { text := "hello", mediaUrl := none }
      ∧ (onNewMessage testPlatform sendingState echoEvent).1.messages = sendingState.messages
      ∧ (onNewMessage testPlatform sendingState echoEvent).1.messages.map
          (fun m => (m._id, m.status)) = [("t1", some "sending")]
      ∧ (onNewMessage testPlatform sendingState echoEvent).2
        = [Effect.consoleError "Decryption failed!"] := by
  decide

/-- C2, the code at the failing input. The store has the key of room `R` and an
empty list; the event `peerEvent` (server id `srv2`, no `tempId`) decrypts and
matches no optimistic entry. Each of the two deliveries ends in the catch branch:
reading `finalMessage` in the else branch throws, `Decryption failed!` is logged and
the list stays empty, so the entry is never stored. The else branch itself has no
test on `_id`: run with `finalMessage` bound to the decrypted message, it appends on
each delivery and leaves two entries with the id `srv2`. -/
theorem newMessage_twice_never_stores_entry :
    (decryptMessage testPlatform (toJsString peerEvent.encryptedContent) { handle := 7 }
        = Except.ok { text := "hello", mediaUrl := none }
      ∧ (roomState.messages.any
          (fun m => truthy m.tempId && decide (m.tempId = peerEvent.tempId))) = false
      ∧ onNewMessage testPlatform roomState peerEvent
        = (roomState, [Effect.consoleError "Decryption failed!"])
      ∧ onNewMessage testPlatform (onNewMessage testPlatform roomState peerEvent).1 peerEvent
        = (roomState, [Effect.consoleError "Decryption failed!"])
      ∧ (onNewMessage testPlatform (onNewMessage testPlatform roomState peerEvent).1
          peerEvent).1.messages = []
      ∧ ((newMessageUpdaterWith (Except.ok peerDecrypted) roomState peerEvent).bind
          (fun s1 => newMessageUpdaterWith (Except.ok peerDecrypted) s1 peerEvent)).map
          (fun s2 => s2.messages.map (fun m => m._id)) = Except.ok ["srv2", "srv2"])
      ∧ (∀ (state : ChatState) (message : Message),
          newMessageUpdaterWith finalMessage state message = newMessageUpdater state message) :=
  ⟨by decide, fun _ _ => rfl⟩

/-! ## Delivery status -/

theorem dictGet_foldl_dictSet {α : Type} (v : α) (ids : List String) (d : List (String × α))
    (m : String) :
    dictGet (ids.foldl (fun acc id => dictSet acc id v) d) m
      = if m ∈ ids then some v else dictGet d m := by
  induction ids generalizing d with
  | nil => simp
  | cons id rest ih =>
    rw [List.foldl_cons, ih]
    by_cases hrest : m ∈ rest
    · simp [hrest]
    · by_cases hid : m = id
      · subst hid
        simp [hrest, dictGet_dictSet_same]
      · simp [hrest, hid, dictGet_dictSet_other _ _ _ _ hid]

/-- C3, counterexample. After `messageRead` for `m1` and then `messagesDelivered`
with `m1` in its list, the status of `m1` is `delivered`, not `read`. -/
theorem read_then_delivered_counterexample :
    dictGet (onMessagesDelivered (onMessageRead emptyState "m1") ["m1"]).messageStatus "m1"
        = some "delivered"
      ∧ dictGet (onMessagesDelivered (onMessageRead emptyState "m1") ["m1"]).messageStatus "m1"
        ≠ some "read" := by
  decide

/-- C3 as amended. The last status event wins: for every status map, every message
id `m` and every `messageIds` list that contains `m`, after `messageRead` for `m`
and then `messagesDelivered` the status of `m` is `delivered`; more generally
`messagesDelivered` sets every listed id to `delivered` whatever its status was
(`read` included) and leaves every other id as it was. -/
theorem read_then_delivered_last_wins (state : ChatState) (m : String)
    (messageIds : List String) (hm : m ∈ messageIds) :
    dictGet (onMessagesDelivered (onMessageRead state m) messageIds).messageStatus m
        = some "delivered"
      ∧ (∀ st : ChatState,
          dictGet (onMessagesDelivered st messageIds).messageStatus m = some "delivered")
      ∧ (∀ (st : ChatState) (other : String), other ∉ messageIds →
          dictGet (onMessagesDelivered st messageIds).messageStatus other
            = dictGet st.messageStatus other) := by
  refine ⟨?_, ?_, ?_⟩
  · simp [onMessagesDelivered, dictGet_foldl_dictSet, hm]
  · intro st
    simp [onMessagesDelivered, dictGet_foldl_dictSet, hm]
  · intro st other hother
    simp [onMessagesDelivered, dictGet_foldl_dictSet, hother]

theorem read_then_delivered_last_wins_witness :
    "m1" ∈ ["m0", "m1"]
      ∧ dictGet (onMessagesDelivered (onMessageRead emptyState "m1") ["m0", "m1"]).messageStatus
          "m1" = some "delivered"
      ∧ (∀ st : ChatState,
          dictGet (onMessagesDelivered st ["m0", "m1"]).messageStatus "m1" = some "delivered")
      ∧ (∀ (st : ChatState) (other : String), other ∉ ["m0", "m1"] →
          dictGet (onMessagesDelivered st ["m0", "m1"]).messageStatus other
            = dictGet st.messageStatus other) :=
  ⟨by decide, read_then_delivered_last_wins emptyState "m1" ["m0", "m1"] (by decide)⟩

/-! ## History pages -/

/-- C5. For every fetched page and every shared key cached for the room when the
fetch resumes, the list stored by `loadMessages` for page 1 has the length of the
fetched page; at each position it holds the fetched message of that position with
the decrypted `text` and `mediaUrl` when that message decrypts, and the same
fetched message with the placeholder text when it does not. -/
theorem loadMessages_page_one_contains_failures (P : Platform)
    (afterFetch afterDecrypt : ChatState → ChatState) (s : ChatState) (roomId : String)
    (fetched : List Message) (sharedKey : CryptoKey)
    (hkey : dictGet (afterFetch { s with loading := true }).sharedKeys roomId = some sharedKey) :
    (loadMessages P afterFetch afterDecrypt s roomId 1 (Except.ok fetched)).1.messages.length
        = fetched.length
      ∧ (∀ (i : Nat) (msg : Message) (payload : Payload), fetched[i]? = some msg →
          decryptMessage P (toJsString msg.text) sharedKey = Except.ok payload →
          (loadMessages P afterFetch afterDecrypt s roomId 1 (Except.ok fetched)).1.messages[i]?
            = some { msg with text := some payload.text, mediaUrl := payload.mediaUrl })
      ∧ (∀ (i : Nat) (msg : Message) (e : JsError), fetched[i]? = some msg →
          decryptMessage P (toJsString msg.text) sharedKey = Except.error e →
          (loadMessages P afterFetch afterDecrypt s roomId 1 (Except.ok fetched)).1.messages[i]?
            = some { msg with text := some "⚠️ Could not decrypt message." }) := by
  have hmsgs : (loadMessages P afterFetch afterDecrypt s roomId 1 (Except.ok fetched)).1.messages
      = fetched.map (decryptOrPlaceholder P sharedKey) := by
    simp [loadMessages, loadMessagesApply, decryptHistory, hkey]
  rw [hmsgs]
  refine ⟨by simp, ?_, ?_⟩
  · intro i msg payload hi hd
    simp [List.getElem?_map, hi, decryptOrPlaceholder, hd]
  · intro i msg e hi hd
    simp [List.getElem?_map, hi, decryptOrPlaceholder, hd]

set_option maxRecDepth 100000 in
theorem loadMessages_page_one_contains_failures_witness :
    (dictGet (id { roomState with loading := true }).sharedKeys "R" = some { handle := 7 }
      ∧ (loadMessages testPlatform id id roomState "R" 1 (Except.ok historyPage)).1.messages.map
          (fun m => (m._id, m.text))
        = [("h1", some "hello"), ("h2", some "hello"),
           ("h3", some "⚠️ Could not decrypt message."),
           ("h4", some "hello"), ("h5", some "hello")])
      ∧ (loadMessages testPlatform id id roomState "R" 1 (Except.ok historyPage)).1.messages.length
        = historyPage.length
      ∧ (∀ (i : Nat) (msg : Message) (payload : Payload), historyPage[i]? = some msg →
          decryptMessage testPlatform (toJsString msg.text) { handle := 7 } = Except.ok payload →
          (loadMessages testPlatform id id roomState "R" 1 (Except.ok historyPage)).1.messages[i]?
            = some { msg with text := some payload.text, mediaUrl := payload.mediaUrl })
      ∧ (∀ (i : Nat) (msg : Message) (e : JsError), historyPage[i]? = some msg →
          decryptMessage testPlatform (toJsString msg.text) { handle := 7 } = Except.error e →
          (loadMessages testPlatform id id roomState "R" 1 (Except.ok historyPage)).1.messages[i]?
            = some { msg with text := some "⚠️ Could not decrypt message." }) :=
  ⟨by decide,
    loadMessages_page_one_contains_failures testPlatform id id roomState "R" historyPage
      { handle := 7 } (by decide)⟩

/-- C6. For every fetched page, with `D` its processed form (`decryptHistory` under
the keys held when the fetch resumes) and `L` the list held when the page is
applied: `loadMessages` with page 1 sets `messages` to `D`, and with a page above 1
it sets `messages` to `D` followed by `L`; when no other handler ran in between,
`L` is the list held before the call. -/
theorem loadMessages_paging (P : Platform) (afterFetch afterDecrypt : ChatState → ChatState)
    (s : ChatState) (roomId : String) (page : Nat) (fetched : List Message)
    (hpage : 1 < page) :
    (loadMessages P afterFetch afterDecrypt s roomId 1 (Except.ok fetched)).1.messages
        = decryptHistory P (afterFetch { s with loading := true }).sharedKeys roomId fetched
      ∧ (loadMessages P afterFetch afterDecrypt s roomId page (Except.ok fetched)).1.messages
        = decryptHistory P (afterFetch { s with loading := true }).sharedKeys roomId fetched
          ++ (afterDecrypt (afterFetch { s with loading := true })).messages
      ∧ (loadMessages P id id s roomId page (Except.ok fetched)).1.messages
        = decryptHistory P s.sharedKeys roomId fetched ++ s.messages := by
  have hne : page ≠ 1 := by omega
  simp [loadMessages, loadMessagesApply, hne]

set_option maxRecDepth 100000 in
theorem loadMessages_paging_witness :
    (1 < 2
      ∧ (loadMessages testPlatform id id sendingState "R" 2 (Except.ok historyPage)).1.messages.map
          (fun m => m._id) = ["h1", "h2", "h3", "h4", "h5", "t1"])
      ∧ (loadMessages testPlatform id id sendingState "R" 1 (Except.ok historyPage)).1.messages
        = decryptHistory testPlatform (id { sendingState with loading := true }).sharedKeys "R"
            historyPage
      ∧ (loadMessages testPlatform id id sendingState "R" 2 (Except.ok historyPage)).1.messages
        = decryptHistory testPlatform (id { sendingState with loading := true }).sharedKeys "R"
            historyPage
          ++ (id (id { sendingState with loading := true })).messages
      ∧ (loadMessages testPlatform id id sendingState "R" 2 (Except.ok historyPage)).1.messages
        = decryptHistory testPlatform sendingState.sharedKeys "R" historyPage
          ++ sendingState.messages :=
  ⟨by decide, loadMessages_paging testPlatform id id sendingState "R" 2 historyPage (by decide)⟩

/-! ## Sending -/

theorem sendMessageSync_awaiting (s s1 : ChatState) (currentUser : Option AuthUser)
    (text tempId now : String) (socket : Socket) (room : Room) (sharedKey : CryptoKey)
    (h : sendMessageSync s currentUser text tempId now
      = SendSync.awaiting s1 socket room sharedKey) :
    ∃ user, currentUser = some user
      ∧ s1 = { s with messages := s.messages ++ [optimisticMessage room user text tempId now] }
      ∧ s.socket = some socket ∧ s.currentRoom = some room
      ∧ dictGet s.sharedKeys room._id = some sharedKey := by
  unfold sendMessageSync at h
  cases hs : s.socket with
  | none => simp [hs] at h
  | some sock =>
    cases hr : s.currentRoom with
    | none => simp [hs, hr] at h
    | some r =>
      cases hk : dictGet s.sharedKeys r._id with
      | none => simp [hs, hr, hk] at h
      | some key =>
        cases hu : currentUser with
        | none => simp [hs, hr, hk, hu] at h
        | some user =>
          simp only [hs, hr, hk, hu, SendSync.awaiting.injEq] at h
          obtain ⟨h1, h2, h3, h4⟩ := h
          subst h2 h3 h4
          exact ⟨user, rfl, h1.symm, rfl, rfl, hk⟩

/-- C7, counterexample. The store `roomState` has a socket, the current room `R` and
a shared key for `R`, but the auth store holds no user: reading `currentUser.id` at
line 501 throws before the `set` of line 508, so the synchronous part ends with a
`TypeError`, `sendMessage` rejects, and `messages` gets no new entry. -/
theorem sendMessageSync_without_user_counterexample :
    (roomState.socket = some { id := 1 } ∧ roomState.currentRoom = some (bareRoom "R")
      ∧ dictGet roomState.sharedKeys (bareRoom "R")._id = some { handle := 7 })
      ∧ sendMessageSync roomState none "hello" "t1" "2024-05-01T10:00:00.000Z"
        = SendSync.done (Except.error (JsError.typeError "currentUser is null")) []
      ∧ (sendMessage testPlatform testIv none "t1" "2024-05-01T10:00:00.000Z" id roomState
          "hello").state.messages = roomState.messages
      ∧ (sendMessage testPlatform testIv none "t1" "2024-05-01T10:00:00.000Z" id roomState
          "hello").state.messages.length ≠ roomState.messages.length + 1
      ∧ (sendMessage testPlatform testIv none "t1" "2024-05-01T10:00:00.000Z" id roomState
          "hello").returned = Except.error (JsError.typeError "currentUser is null") := by
  decide

/-- C7 as amended. For every store with a socket, a current room `R` and a shared key
for `R`, a user in the auth store and every text: the synchronous part of
`sendMessage` ends awaiting encryption, with the store changed in `messages` only;
the new list is the previous one with one entry added at the tail, which has status
`sending`, `tempId` equal to the generated correlation id, `roomId` equal to the id
of `R` and the given text; the length grows by one and every earlier position holds
what it held. -/
theorem sendMessageSync_appends_optimistic (s : ChatState) (socket : Socket) (room : Room)
    (sharedKey : CryptoKey) (user : AuthUser) (text tempId now : String)
    (hsocket : s.socket = some socket) (hroom : s.currentRoom = some room)
    (hkey : dictGet s.sharedKeys room._id = some sharedKey) :
    ∃ entry : Message,
      sendMessageSync s (some user) text tempId now
          = SendSync.awaiting { s with messages := s.messages ++ [entry] } socket room sharedKey
        ∧ entry.status = some "sending"
        ∧ entry.tempId = some tempId
        ∧ entry.roomId = room._id
        ∧ entry.text = some text
        ∧ (s.messages ++ [entry]).length = s.messages.length + 1
        ∧ (s.messages ++ [entry])[s.messages.length]? = some entry
        ∧ (∀ i : Nat, i < s.messages.length → (s.messages ++ [entry])[i]? = s.messages[i]?) := by
  refine ⟨optimisticMessage room user text tempId now, ?_, rfl, rfl, rfl, rfl, by simp, by simp,
    ?_⟩
  · simp [sendMessageSync, hsocket, hroom, hkey]
  · intro i hi
    exact List.getElem?_append_left hi

theorem sendMessageSync_appends_optimistic_witness :
    (roomState.socket = some { id := 1 } ∧ roomState.currentRoom = some (bareRoom "R")
      ∧ dictGet roomState.sharedKeys (bareRoom "R")._id = some { handle := 7 })
      ∧ ∃ entry : Message,
        sendMessageSync roomState (some alice) "hello" "t1" "2024-05-01T10:00:00.000Z"
            = SendSync.awaiting { roomState with messages := roomState.messages ++ [entry] }
                { id := 1 } (bareRoom "R") { handle := 7 }
          ∧ entry.status = some "sending"
          ∧ entry.tempId = some "t1"
          ∧ entry.roomId = (bareRoom "R")._id
          ∧ entry.text = some "hello"
          ∧ (roomState.messages ++ [entry]).length = roomState.messages.length + 1
          ∧ (roomState.messages ++ [entry])[roomState.messages.length]? = some entry
          ∧ (∀ i : Nat, i < roomState.messages.length →
              (roomState.messages ++ [entry])[i]? = roomState.messages[i]?) :=
  ⟨by decide,
    sendMessageSync_appends_optimistic roomState { id := 1 } (bareRoom "R") { handle := 7 } alice
      "hello" "t1" "2024-05-01T10:00:00.000Z" (by decide) (by decide) (by decide)⟩

/-- C8. For every run of `sendMessage` that has stored its optimistic entry with
correlation id `t` (the synchronous part ended awaiting, with store `s1`) and whose
encryption then fails: with `L` the list held when the failure is handled, the
resulting list is `L` without the entries whose `_id` is `t` and with every other
entry in its relative order; the optimistic entry, which was in `s1` with status
`sending`, is not in the result, no entry of the result has `_id` `t`, and
`sendMessage` returns `{ success: false }`. -/
theorem sendMessage_failure_removes_optimistic (P : Platform) (iv : List Byte)
    (currentUser : Option AuthUser) (tempId now : String) (during : ChatState → ChatState)
    (s s1 : ChatState) (text : String) (socket : Socket) (room : Room) (sharedKey : CryptoKey)
    (e : JsError)
    (hsync : sendMessageSync s currentUser text tempId now
      = SendSync.awaiting s1 socket room sharedKey)
    (hfail : encryptMessage P iv { text := text, mediaUrl := none } sharedKey = Except.error e) :
    (sendMessage P iv currentUser tempId now during s text).state.messages
        = (during s1).messages.filter (fun m => m._id != tempId)
      ∧ (∀ m ∈ (sendMessage P iv currentUser tempId now during s text).state.messages,
          m._id ≠ tempId)
      ∧ (∀ m ∈ (during s1).messages, m._id ≠ tempId →
          m ∈ (sendMessage P iv currentUser tempId now during s text).state.messages)
      ∧ (∃ entry ∈ s1.messages, entry._id = tempId ∧ entry.tempId = some tempId
          ∧ entry.status = some "sending"
          ∧ entry ∉ (sendMessage P iv currentUser tempId now during s text).state.messages)
      ∧ (sendMessage P iv currentUser tempId now during s text).returned
        = Except.ok (some { success := false }) := by
  have hres : sendMessage P iv currentUser tempId now during s text
      = { state := { during s1 with
            messages := (during s1).messages.filter (fun m => m._id != tempId) }
          effects := [Effect.toastError "Failed to send message"]
          returned := Except.ok (some { success := false }) } := by
    simp [sendMessage, hsync, sendMessageResume, hfail]
  rw [hres]
  refine ⟨rfl, ?_, ?_, ?_, rfl⟩
  · intro m hm
    simpa using (List.mem_filter.1 hm).2
  · intro m hm hne
    exact List.mem_filter.2 ⟨hm, by simpa using hne⟩
  · obtain ⟨user, _, hs1, _⟩ :=
      sendMessageSync_awaiting s s1 currentUser text tempId now socket room sharedKey hsync
    refine ⟨optimisticMessage room user text tempId now, ?_, rfl, rfl, rfl, ?_⟩
    · rw [hs1]
      simp
    · intro hmem
      have := (List.mem_filter.1 hmem).2
      simp [optimisticMessage] at this

set_option maxRecDepth 100000 in
theorem sendMessage_failure_removes_optimistic_witness :
    (sendMessageSync roomState (some alice) "hello" "t1" "2024-05-01T10:00:00.000Z"
        = SendSync.awaiting sendingState { id := 1 } (bareRoom "R") { handle := 7 }
      ∧ encryptMessage rejectingPlatform testIv { text := "hello", mediaUrl := none }
          { handle := 7 } = Except.error JsError.operationError
      ∧ (sendMessage rejectingPlatform testIv (some alice) "t1" "2024-05-01T10:00:00.000Z" id
          roomState "hello").state.messages = [])
      ∧ (sendMessage rejectingPlatform testIv (some alice) "t1" "2024-05-01T10:00:00.000Z" id
          roomState "hello").state.messages
        = (id sendingState).messages.filter (fun m => m._id != "t1")
      ∧ (∀ m ∈ (sendMessage rejectingPlatform testIv (some alice) "t1"
            "2024-05-01T10:00:00.000Z" id roomState "hello").state.messages, m._id ≠ "t1")
      ∧ (∀ m ∈ (id sendingState).messages, m._id ≠ "t1" →
          m ∈ (sendMessage rejectingPlatform testIv (some alice) "t1"
            "2024-05-01T10:00:00.000Z" id roomState "hello").state.messages)
      ∧ (∃ entry ∈ sendingState.messages, entry._id = "t1" ∧ entry.tempId = some "t1"
          ∧ entry.status = some "sending"
          ∧ entry ∉ (sendMessage rejectingPlatform testIv (some alice) "t1"
            "2024-05-01T10:00:00.000Z" id roomState "hello").state.messages)
      ∧ (sendMessage rejectingPlatform testIv (some alice) "t1" "2024-05-01T10:00:00.000Z" id
          roomState "hello").returned = Except.ok (some { success := false }) :=
  ⟨by decide,
    sendMessage_failure_removes_optimistic rejectingPlatform testIv (some alice) "t1"
      "2024-05-01T10:00:00.000Z" id roomState sendingState "hello" { id := 1 } (bareRoom "R")
      { handle := 7 } JsError.operationError (by decide) (by decide)⟩

/-! ## Room updates and typing -/

theorem newUnreadCounts_of_logged_in (state : ChatState) (user : AuthUser) (updatedRoom : Room)
    (counts : List (String × Nat)) (hid : user.id ≠ "")
    (hcounts : updatedRoom.unreadCounts = some counts) :
    newUnreadCounts state (some user) updatedRoom
      = dictSet state.unreadCounts updatedRoom._id ((dictGet counts user.id).getD 0) := by
  simp [newUnreadCounts, hcounts, truthy, toJsString, hid]

/-- C9. For every store, every logged-in user `u` (the auth store holds a user with
a non-empty id) and every `roomUpdated` event for room `r` that carries an
`unreadCounts` map, with `n` the entry of `u` in that map (0 when there is none):
after the handler `unreadCounts[r]` is `n` whatever it was, the room list has the
same length, every position that held a room with id `r` holds a room with id `r`
whose `unreadCount` is `n`, every position that held another room holds the same
record, and the counter of every other room is unchanged. -/
theorem roomUpdated_unread_from_server (state : ChatState) (user : AuthUser)
    (updatedRoom : Room) (counts : List (String × Nat)) (hid : user.id ≠ "")
    (hcounts : updatedRoom.unreadCounts = some counts) :
    dictGet (onRoomUpdated state (some user) updatedRoom).unreadCounts updatedRoom._id
        = some ((dictGet counts user.id).getD 0)
      ∧ (onRoomUpdated state (some user) updatedRoom).rooms.length = state.rooms.length
      ∧ (∀ (i : Nat) (room : Room), state.rooms[i]? = some room → room._id = updatedRoom._id →
          ∃ updated : Room, (onRoomUpdated state (some user) updatedRoom).rooms[i]? = some updated
            ∧ updated._id = updatedRoom._id
            ∧ updated.unreadCount = some ((dictGet counts user.id).getD 0))
      ∧ (∀ (i : Nat) (room : Room), state.rooms[i]? = some room → room._id ≠ updatedRoom._id →
          (onRoomUpdated state (some user) updatedRoom).rooms[i]? = some room)
      ∧ (∀ r : String, r ≠ updatedRoom._id →
          dictGet (onRoomUpdated state (some user) updatedRoom).unreadCounts r
            = dictGet state.unreadCounts r) := by
  have hnew := newUnreadCounts_of_logged_in state user updatedRoom counts hid hcounts
  refine ⟨?_, ?_, ?_, ?_, ?_⟩
  · simp [onRoomUpdated, hnew, dictGet_dictSet_same]
  · simp [onRoomUpdated]
  · intro i room hi hr
    refine ⟨{ mergeRoom room updatedRoom with
      unreadCount := dictGet (newUnreadCounts state (some user) updatedRoom) updatedRoom._id },
      ?_, rfl, ?_⟩
    · simp [onRoomUpdated, List.getElem?_map, hi, hr]
    · simp [hnew, dictGet_dictSet_same]
  · intro i room hi hr
    simp [onRoomUpdated, List.getElem?_map, hi, hr]
  · intro r hr
    simp [onRoomUpdated, hnew, dictGet_dictSet_other _ _ _ _ hr]

theorem roomUpdated_unread_from_server_witness :
    (alice.id ≠ "" ∧ unreadUpdate.unreadCounts = some [("u2", 4), ("u1", 3)]
      ∧ dictGet twoRoomState.unreadCounts "R" = some 9
      ∧ (onRoomUpdated twoRoomState (some alice) unreadUpdate).rooms.map
          (fun room => (room._id, room.unreadCount)) = [("R", some 3), ("Q", some 2)])
      ∧ dictGet (onRoomUpdated twoRoomState (some alice) unreadUpdate).unreadCounts
          unreadUpdate._id = some ((dictGet [("u2", 4), ("u1", 3)] alice.id).getD 0)
      ∧ (onRoomUpdated twoRoomState (some alice) unreadUpdate).rooms.length
        = twoRoomState.rooms.length
      ∧ (∀ (i : Nat) (room : Room), twoRoomState.rooms[i]? = some room →
          room._id = unreadUpdate._id →
          ∃ updated : Room,
            (onRoomUpdated twoRoomState (some alice) unreadUpdate).rooms[i]? = some updated
            ∧ updated._id = unreadUpdate._id
            ∧ updated.unreadCount = some ((dictGet [("u2", 4), ("u1", 3)] alice.id).getD 0))
      ∧ (∀ (i : Nat) (room : Room), twoRoomState.rooms[i]? = some room →
          room._id ≠ unreadUpdate._id →
          (onRoomUpdated twoRoomState (some alice) unreadUpdate).rooms[i]? = some room)
      ∧ (∀ r : String, r ≠ unreadUpdate._id →
          dictGet (onRoomUpdated twoRoomState (some alice) unreadUpdate).unreadCounts r
            = dictGet twoRoomState.unreadCounts r) :=
  ⟨by decide,
    roomUpdated_unread_from_server twoRoomState alice unreadUpdate [("u2", 4), ("u1", 3)]
      (by decide) (by decide)⟩

/-- C10, counterexample. Two `userTyping` start events for user `u1` in room `R`
leave `u1` twice in the typing list of `R`; one event leaves it once. -/
theorem userTyping_start_twice_counterexample :
    onUserTyping (onUserTyping emptyState { roomId := "R", userId := "u1", isTyping := true })
        { roomId := "R", userId := "u1", isTyping := true }
      ≠ onUserTyping emptyState { roomId := "R", userId := "u1", isTyping := true }
    ∧ dictGet (onUserTyping
        (onUserTyping emptyState { roomId := "R", userId := "u1", isTyping := true })
        { roomId := "R", userId := "u1", isTyping := true }).typingUsers "R"
      = some ["u1", "u1"]
    ∧ dictGet (onUserTyping emptyState
        { roomId := "R", userId := "u1", isTyping := true }).typingUsers "R"
      = some ["u1"] := by
  decide

/-- C10 as amended. A repeated stop-typing event changes nothing: applying the
handler twice with the same stop event gives the state that applying it once gives.
A start-typing event puts the user id at the end of the room list each time it is
applied, so after two applications the list is the previous one followed by the
user id twice. -/
theorem userTyping_stop_idempotent_start_appends (state : ChatState)
    (roomId userId : String) :
    onUserTyping (onUserTyping state { roomId := roomId, userId := userId, isTyping := false })
        { roomId := roomId, userId := userId, isTyping := false }
      = onUserTyping state { roomId := roomId, userId := userId, isTyping := false }
    ∧ dictGet (onUserTyping
        (onUserTyping state { roomId := roomId, userId := userId, isTyping := true })
        { roomId := roomId, userId := userId, isTyping := true }).typingUsers roomId
      = some ((dictGet state.typingUsers roomId).getD [] ++ [userId, userId]) := by
  constructor
  · simp [onUserTyping, dictGet_dictSet_same, dictSet_dictSet_same]
  · simp [onUserTyping, dictGet_dictSet_same, dictSet_dictSet_same]

/-! ## Presence -/

theorem mem_foldl_insert (items acc : List String) (x : String) :
    x ∈ items.foldl (fun set item => if item ∈ set then set else set ++ [item]) acc
      ↔ x ∈ acc ∨ x ∈ items := by
  induction items generalizing acc with
  | nil => simp
  | cons item rest ih =>
    rw [List.foldl_cons, ih]
    by_cases hmem : item ∈ acc
    · rw [if_pos hmem]
      constructor
      · rintro (h | h)
        · exact Or.inl h
        · exact Or.inr (List.mem_cons_of_mem _ h)
      · rintro (h | h)
        · exact Or.inl h
        · rcases List.mem_cons.1 h with rfl | h
          · exact Or.inl hmem
          · exact Or.inr h
    · rw [if_neg hmem]
      simp only [List.mem_append, List.mem_singleton, List.mem_cons]
      tauto

theorem mem_newSet (items : List String) (x : String) : x ∈ newSet items ↔ x ∈ items := by
  simp [newSet, mem_foldl_insert]

/-- C11, counterexample. From the empty presence set, `userOffline` for `u1` followed
by `userOnline` for `u1` leaves `u1` in `onlineUsers`, not absent. -/
theorem offline_then_online_counterexample :
    (onUserOnline (onUserOffline emptyState "u1") "u1").onlineUsers = ["u1"]
      ∧ isUserOnline (onUserOnline (onUserOffline emptyState "u1") "u1") "u1" = true := by
  decide

/-- C11 as amended. The last presence event wins: for every presence set and every
user `u`, `userOnline` for `u` followed by `userOffline` for `u` leaves `u` absent
from `onlineUsers`, and `userOffline` for `u` followed by `userOnline` for `u`
leaves `u` present. -/
theorem presence_last_event_wins (state : ChatState) (u : String) :
    u ∉ (onUserOffline (onUserOnline state u) u).onlineUsers
      ∧ isUserOnline (onUserOffline (onUserOnline state u) u) u = false
      ∧ u ∈ (onUserOnline (onUserOffline state u) u).onlineUsers
      ∧ isUserOnline (onUserOnline (onUserOffline state u) u) u = true := by
  have hoff : u ∉ (onUserOffline (onUserOnline state u) u).onlineUsers := by
    simp [onUserOffline, setDelete]
  have hon : u ∈ (onUserOnline (onUserOffline state u) u).onlineUsers := by
    simp [onUserOnline, mem_newSet]
  refine ⟨hoff, ?_, hon, ?_⟩
  · simpa [isUserOnline] using hoff
  · simpa [isUserOnline] using hon

/-! ## Inbound message without a key -/

/-- C13. For every store and every inbound event whose `roomId` has no entry in
`sharedKeys`, the handler ends with the store exactly as it was (every field) and
has done nothing but log the warning. -/
theorem newMessage_without_key_unchanged (P : Platform) (s : ChatState) (message : Message)
    (hkey : dictGet s.sharedKeys message.roomId = none) :
    (onNewMessage P s message).1 = s
      ∧ (onNewMessage P s message).2
        = [Effect.consoleWarn
            ("No shared key for room " ++ message.roomId ++ ". Cannot decrypt.")] := by
  simp [onNewMessage, hkey]

theorem newMessage_without_key_unchanged_witness :
    dictGet twoRoomState.sharedKeys peerEvent.roomId = none
      ∧ (onNewMessage testPlatform twoRoomState peerEvent).1 = twoRoomState
      ∧ (onNewMessage testPlatform twoRoomState peerEvent).2
        = [Effect.consoleWarn
            ("No shared key for room " ++ peerEvent.roomId ++ ". Cannot decrypt.")] :=
  ⟨by decide, newMessage_without_key_unchanged testPlatform twoRoomState peerEvent (by decide)⟩

/-! ## A history page that resumes in another room -/

/-- C14, counterexample. `loadMessages("R", 1)` starts in room `R`; while the fetch
is awaited `joinRoom("Q")` runs, so on resumption the current room is `Q` and the
list is empty. The page of `R` is applied all the same: `messages` holds its five
entries while the current room is `Q`. -/
theorem loadMessages_stale_counterexample :
    ((joinRoom { inRoomR with loading := true } "Q").1.currentRoom.map (fun r => r._id)
        = some "Q"
      ∧ (joinRoom { inRoomR with loading := true } "Q").1.messages = [])
      ∧ (loadMessages testPlatform (fun st => (joinRoom st "Q").1) id inRoomR "R" 1
          (Except.ok historyPage)).1.currentRoom.map (fun r => r._id) = some "Q"
      ∧ (loadMessages testPlatform (fun st => (joinRoom st "Q").1) id inRoomR "R" 1
          (Except.ok historyPage)).1.messages.map (fun m => (m._id, m.roomId))
        = [("h1", "R"), ("h2", "R"), ("h3", "R"), ("h4", "R"), ("h5", "R")]
      ∧ (loadMessages testPlatform (fun st => (joinRoom st "Q").1) id inRoomR "R" 1
          (Except.ok historyPage)).1.messages
        ≠ (joinRoom { inRoomR with loading := true } "Q").1.messages := by
  decide

/-- C14 as amended. `loadMessages` applies the fetched page whatever the current
room is when it resumes: for every call whose store on resumption has a current
room other than `roomId` (or none), with `D` the processed page and `L` the list
held at that moment, `messages` becomes `D` for page 1 and `D` followed by `L` for
any other page, while the current room stays the one found on resumption, which is
not `roomId`. -/
theorem loadMessages_applies_when_stale (P : Platform)
    (afterFetch afterDecrypt : ChatState → ChatState) (s : ChatState) (roomId : String)
    (page : Nat) (fetched : List Message)
    (hstale : (afterDecrypt (afterFetch { s with loading := true })).currentRoom.map
      (fun r => r._id) ≠ some roomId) :
    (loadMessages P afterFetch afterDecrypt s roomId page (Except.ok fetched)).1.messages
        = (if page = 1 then
            decryptHistory P (afterFetch { s with loading := true }).sharedKeys roomId fetched
          else
            decryptHistory P (afterFetch { s with loading := true }).sharedKeys roomId fetched
              ++ (afterDecrypt (afterFetch { s with loading := true })).messages)
      ∧ (loadMessages P afterFetch afterDecrypt s roomId page (Except.ok fetched)).1.currentRoom
        = (afterDecrypt (afterFetch { s with loading := true })).currentRoom
      ∧ (loadMessages P afterFetch afterDecrypt s roomId page
          (Except.ok fetched)).1.currentRoom.map (fun r => r._id) ≠ some roomId := by
  have hroom : (loadMessages P afterFetch afterDecrypt s roomId page
      (Except.ok fetched)).1.currentRoom
      = (afterDecrypt (afterFetch { s with loading := true })).currentRoom := by
    by_cases hp : page = 1
    · simp [loadMessages, loadMessagesApply, hp]
    · simp [loadMessages, loadMessagesApply, hp]
  refine ⟨?_, hroom, ?_⟩
  · by_cases hp : page = 1
    · simp [loadMessages, loadMessagesApply, hp]
    · simp [loadMessages, loadMessagesApply, hp]
  · rw [hroom]
    exact hstale

theorem loadMessages_applies_when_stale_witness :
    (id ((fun st => (leaveRoom st).1) { sendingState with loading := true })).currentRoom.map
        (fun r => r._id) ≠ some "R"
      ∧ (loadMessages testPlatform (fun st => (leaveRoom st).1) id sendingState "R" 2
          (Except.ok historyPage)).1.messages
        = (if 2 = 1 then
            decryptHistory testPlatform
              ((fun st => (leaveRoom st).1) { sendingState with loading := true }).sharedKeys
              "R" historyPage
          else
            decryptHistory testPlatform
              ((fun st => (leaveRoom st).1) { sendingState with loading := true }).sharedKeys
              "R" historyPage
              ++ (id ((fun st => (leaveRoom st).1)
                { sendingState with loading := true })).messages)
      ∧ (loadMessages testPlatform (fun st => (leaveRoom st).1) id sendingState "R" 2
          (Except.ok historyPage)).1.currentRoom
        = (id ((fun st => (leaveRoom st).1) { sendingState with loading := true })).currentRoom
      ∧ (loadMessages testPlatform (fun st => (leaveRoom st).1) id sendingState "R" 2
          (Except.ok historyPage)).1.currentRoom.map (fun r => r._id) ≠ some "R" :=
  ⟨by decide,
    loadMessages_applies_when_stale testPlatform (fun st => (leaveRoom st).1) id sendingState
      "R" 2 historyPage (by decide)⟩

/-! ## The outcome of `sendMessage` -/

/-- C15, the code at the failing input. On the initial store (no socket, no current
room) `sendMessage("hello")` settles with `undefined`, not with an outcome object,
and leaves the store as it was; the same holds with a socket but no current room.
With a socket, a room and no key it returns `{ success: false }`. -/
theorem sendMessage_without_socket_returns_undefined :
    (sendMessage testPlatform testIv (some alice) "t1" "2024-05-01T10:00:00.000Z" id
        emptyState "hello").returned = Except.ok none
      ∧ (sendMessage testPlatform testIv (some alice) "t1" "2024-05-01T10:00:00.000Z" id
        emptyState "hello").state = emptyState
      ∧ (sendMessage testPlatform testIv (some alice) "t1" "2024-05-01T10:00:00.000Z" id
        twoRoomState "hello").returned = Except.ok none
      ∧ (sendMessage testPlatform testIv (some alice) "t1" "2024-05-01T10:00:00.000Z" id
        { roomState with sharedKeys := [] } "hello").returned
        = Except.ok (some { success := false }) := by
  decide

/-! ## Loading the persisted keys -/

theorem importEntries_error (K : KeyStorage) (entries : List (String × Jwk))
    (acc : List (String × CryptoKey))
    (hbad : ∃ entry ∈ entries, ∃ e, K.importKey entry.2 = Except.error e) :
    ∃ e, importEntries K entries acc = Except.error e := by
  induction entries generalizing acc with
  | nil => simp at hbad
  | cons entry rest ih =>
    obtain ⟨roomId, jwk⟩ := entry
    cases hk : K.importKey jwk with
    | error e => exact ⟨e, by simp [importEntries, hk]⟩
    | ok key =>
      have hrest : ∃ entry ∈ rest, ∃ e, K.importKey entry.2 = Except.error e := by
        obtain ⟨entry, hmem, e, he⟩ := hbad
        rcases List.mem_cons.1 hmem with rfl | hmem
        · rw [hk] at he
          cases he
        · exact ⟨entry, hmem, e, he⟩
      obtain ⟨e, he⟩ := ih (dictSet acc roomId key) hrest
      exact ⟨e, by simp [importEntries, hk, he]⟩

theorem dictGet_isSome_dictSet {α : Type} (d : List (String × α)) (k r : String) (v : α) :
    (dictGet (dictSet d k v) r).isSome = true ↔ (dictGet d r).isSome = true ∨ r = k := by
  by_cases h : r = k
  · subst h
    simp [dictGet_dictSet_same]
  · simp [dictGet_dictSet_other _ _ _ _ h, h]

theorem importEntries_ok (K : KeyStorage) (entries : List (String × Jwk))
    (acc : List (String × CryptoKey))
    (hgood : ∀ entry ∈ entries, ∃ key, K.importKey entry.2 = Except.ok key) :
    ∃ keys, importEntries K entries acc = Except.ok keys
      ∧ (∀ r, (dictGet keys r).isSome = true
          ↔ (dictGet acc r).isSome = true ∨ r ∈ entries.map Prod.fst)
      ∧ (∀ r key, dictGet keys r = some key →
          dictGet acc r = some key
            ∨ ∃ jwk, (r, jwk) ∈ entries ∧ K.importKey jwk = Except.ok key) := by
  induction entries generalizing acc with
  | nil => exact ⟨acc, rfl, by simp, fun r key h => Or.inl h⟩
  | cons entry rest ih =>
    obtain ⟨roomId, jwk⟩ := entry
    obtain ⟨key, hk⟩ := hgood (roomId, jwk) (by simp)
    obtain ⟨keys, hkeys, hdom, hval⟩ :=
      ih (dictSet acc roomId key) (fun entry hmem => hgood entry (List.mem_cons_of_mem _ hmem))
    refine ⟨keys, by simp [importEntries, hk, hkeys], ?_, ?_⟩
    · intro r
      rw [hdom r, dictGet_isSome_dictSet]
      simp only [List.map_cons, List.mem_cons]
      tauto
    · intro r key2 hget
      rcases hval r key2 hget with h | ⟨jwk2, hmem, himp⟩
      · by_cases hr : r = roomId
        · subst hr
          rw [dictGet_dictSet_same] at h
          cases h
          exact Or.inr ⟨jwk, by simp, hk⟩
        · rw [dictGet_dictSet_other _ _ _ _ hr] at h
          exact Or.inl h
      · exact Or.inr ⟨jwk2, List.mem_cons_of_mem _ hmem, himp⟩

/-- C12, counterexample. The stored record has an entry for `R` that imports and an
entry for `Q` that does not: `loadSharedKeysFromSession` fails with the import
error instead of returning the mapping for `R`, and `init` leaves `sharedKeys` as it
was and rejects. An unparsable record fails the same way. -/
theorem loadSharedKeys_corrupt_counterexample :
    testKeyStorage.importKey { k := "good" } = Except.ok { handle := 4 }
      ∧ loadSharedKeysFromSession testKeyStorage (some "R=good;Q=corrupt")
        = Except.error JsError.operationError
      ∧ init testKeyStorage (some "R=good;Q=corrupt") emptyState
        = (emptyState, Except.error JsError.operationError)
      ∧ loadSharedKeysFromSession testKeyStorage (some "not a record")
        = Except.error JsError.syntaxError
      ∧ init testKeyStorage (some "not a record") emptyState
        = (emptyState, Except.error JsError.syntaxError) := by
  decide

/-- C12 as amended. `loadSharedKeysFromSession` is all or nothing. For every
non-empty stored record: if it does not parse, the function fails with the parse
error; if it parses and some entry cannot be imported, the function fails; in both
cases `init` rejects and leaves the store as it was. If it parses and every entry
imports, the function returns a mapping whose rooms are exactly the rooms of the
record, each with a key imported from an entry of that room, and `init` sets
`sharedKeys` to it. An absent or empty record gives the empty mapping. -/
theorem loadSharedKeys_all_or_nothing (K : KeyStorage) (s : ChatState) (record : String)
    (hrecord : record ≠ "") :
    (∀ e, K.parseRecord record = Except.error e →
        loadSharedKeysFromSession K (some record) = Except.error e
          ∧ init K (some record) s = (s, Except.error e))
      ∧ (∀ entries, K.parseRecord record = Except.ok entries →
          (∃ entry ∈ entries, ∃ e, K.importKey entry.2 = Except.error e) →
          ∃ e, loadSharedKeysFromSession K (some record) = Except.error e
            ∧ init K (some record) s = (s, Except.error e))
      ∧ (∀ entries, K.parseRecord record = Except.ok entries →
          (∀ entry ∈ entries, ∃ key, K.importKey entry.2 = Except.ok key) →
          ∃ keys, loadSharedKeysFromSession K (some record) = Except.ok keys
            ∧ init K (some record) s = ({ s with sharedKeys := keys }, Except.ok ())
            ∧ (∀ r, (dictGet keys r).isSome = true ↔ r ∈ entries.map Prod.fst)
            ∧ (∀ r key, dictGet keys r = some key →
                ∃ jwk, (r, jwk) ∈ entries ∧ K.importKey jwk = Except.ok key))
      ∧ loadSharedKeysFromSession K none = Except.ok []
      ∧ loadSharedKeysFromSession K (some "") = Except.ok [] := by
  have htruthy : truthy (some record) = true := by simp [truthy, hrecord]
  refine ⟨?_, ?_, ?_, by simp [loadSharedKeysFromSession, truthy],
    by simp [loadSharedKeysFromSession, truthy]⟩
  · intro e hparse
    have hload : loadSharedKeysFromSession K (some record) = Except.error e := by
      simp [loadSharedKeysFromSession, htruthy, toJsString, hparse]
    exact ⟨hload, by simp [init, hload]⟩
  · intro entries hparse hbad
    obtain ⟨e, he⟩ := importEntries_error K entries [] hbad
    have hload : loadSharedKeysFromSession K (some record) = Except.error e := by
      simp [loadSharedKeysFromSession, htruthy, toJsString, hparse, he]
    exact ⟨e, hload, by simp [init, hload]⟩
  · intro entries hparse hgood
    obtain ⟨keys, hkeys, hdom, hval⟩ := importEntries_ok K entries [] hgood
    have hload : loadSharedKeysFromSession K (some record) = Except.ok keys := by
      simp [loadSharedKeysFromSession, htruthy, toJsString, hparse, hkeys]
    refine ⟨keys, hload, by simp [init, hload], ?_, ?_⟩
    · intro r
      rw [hdom r]
      simp [dictGet]
    · intro r key hget
      rcases hval r key hget with h | h
      · simp [dictGet] at h
      · exact h

theorem loadSharedKeys_all_or_nothing_witness :
    ("R=good" ≠ ""
      ∧ loadSharedKeysFromSession testKeyStorage (some "R=good")
        = Except.ok [("R", { handle := 4 })])
      ∧ (∀ e, testKeyStorage.parseRecord "R=good" = Except.error e →
          loadSharedKeysFromSession testKeyStorage (some "R=good") = Except.error e
            ∧ init testKeyStorage (some "R=good") emptyState = (emptyState, Except.error e))
      ∧ (∀ entries, testKeyStorage.parseRecord "R=good" = Except.ok entries →
          (∃ entry ∈ entries, ∃ e, testKeyStorage.importKey entry.2 = Except.error e) →
          ∃ e, loadSharedKeysFromSession testKeyStorage (some "R=good") = Except.error e
            ∧ init testKeyStorage (some "R=good") emptyState = (emptyState, Except.error e))
      ∧ (∀ entries, testKeyStorage.parseRecord "R=good" = Except.ok entries →
          (∀ entry ∈ entries, ∃ key, testKeyStorage.importKey entry.2 = Except.ok key) →
          ∃ keys, loadSharedKeysFromSession testKeyStorage (some "R=good") = Except.ok keys
            ∧ init testKeyStorage (some "R=good") emptyState
              = ({ emptyState with sharedKeys := keys }, Except.ok ())
            ∧ (∀ r, (dictGet keys r).isSome = true ↔ r ∈ entries.map Prod.fst)
            ∧ (∀ r key, dictGet keys r = some key →
                ∃ jwk, (r, jwk) ∈ entries ∧ testKeyStorage.importKey jwk = Except.ok key))
      ∧ loadSharedKeysFromSession testKeyStorage none = Except.ok []
      ∧ loadSharedKeysFromSession testKeyStorage (some "") = Except.ok [] :=
  ⟨by decide, loadSharedKeys_all_or_nothing testKeyStorage emptyState "R=good" (by decide)⟩

/-! ## The password-reset gate -/

theorem isStrong_iff (v : List Nat) : isStrong v = true ↔ MeetsPasswordPolicy v := by
  simp only [isStrong, passwordRules, List.all_cons, List.all_nil, Bool.and_true,
    Bool.and_eq_true, decide_eq_true_eq, List.any_eq_true, Bool.not_eq_true', Bool.or_eq_false_iff,
    decide_eq_false_iff_not, MeetsPasswordPolicy, ge_iff_le, not_or, and_assoc]

theorem handleSubmit_weak (email : String) (form : FormState)
    (response : Except (Option String) Unit) (hs : isStrong form.newPassword = false) :
    handleSubmit email form response
      = ({ form with error := "Password is not strong enough." }, []) := by
  simp [handleSubmit, hs]

theorem handleSubmit_mismatch (email : String) (form : FormState)
    (response : Except (Option String) Unit) (hs : isStrong form.newPassword = true)
    (hm : form.newPassword ≠ form.confirmPassword) :
    handleSubmit email form response = ({ form with error := "Passwords do not match." }, []) := by
  simp [handleSubmit, hs, hm]

theorem handleSubmit_posts (email : String) (form : FormState)
    (response : Except (Option String) Unit) (hs : isStrong form.newPassword = true)
    (hm : form.newPassword = form.confirmPassword) :
    (handleSubmit email form response).2
      = [{ email := email, otp := form.otp, newPassword := form.newPassword }] := by
  unfold handleSubmit
  rw [if_neg (by simp [hs]), if_neg (by simp [hm])]
  cases response <;> rfl

/-- C16. For every `newPassword` and `confirmPassword` (and whatever the server
answers), `handleSubmit` posts the reset request if and only if `newPassword` has at
least 8 characters, one in `A-Z`, one in `a-z`, one in `0-9` and one outside
`[A-Za-z0-9]`, and `confirmPassword` equals `newPassword`; it then posts exactly one
request, carrying the email, the OTP and `newPassword`. Otherwise it posts nothing
and only sets the error: `Password is not strong enough.` when a rule fails, else
`Passwords do not match.`. -/
theorem handleSubmit_posts_iff_strong_and_matching (email : String) (form : FormState)
    (response : Except (Option String) Unit) :
    ((handleSubmit email form response).2 ≠ []
        ↔ MeetsPasswordPolicy form.newPassword ∧ form.confirmPassword = form.newPassword)
      ∧ (MeetsPasswordPolicy form.newPassword ∧ form.confirmPassword = form.newPassword →
          (handleSubmit email form response).2
            = [{ email := email, otp := form.otp, newPassword := form.newPassword }])
      ∧ (¬ MeetsPasswordPolicy form.newPassword →
          handleSubmit email form response
            = ({ form with error := "Password is not strong enough." }, []))
      ∧ (MeetsPasswordPolicy form.newPassword → form.confirmPassword ≠ form.newPassword →
          handleSubmit email form response
            = ({ form with error := "Passwords do not match." }, [])) := by
  by_cases hstrong : MeetsPasswordPolicy form.newPassword
  · have hs : isStrong form.newPassword = true := (isStrong_iff _).2 hstrong
    by_cases hmatch : form.confirmPassword = form.newPassword
    · have hpost := handleSubmit_posts email form response hs hmatch.symm
      refine ⟨?_, fun _ => hpost, fun h => absurd hstrong h, fun _ h => absurd hmatch h⟩
      rw [hpost]
      exact ⟨fun _ => ⟨hstrong, hmatch⟩, fun _ => List.cons_ne_nil _ _⟩
    · have hnone := handleSubmit_mismatch email form response hs (fun h => hmatch h.symm)
      refine ⟨?_, fun h => absurd h.2 hmatch, fun h => absurd hstrong h, fun _ _ => hnone⟩
      rw [hnone]
      exact ⟨fun h => absurd rfl h, fun h => absurd h.2 hmatch⟩
  · have hs : isStrong form.newPassword = false := by
      cases h : isStrong form.newPassword
      · rfl
      · exact absurd ((isStrong_iff _).1 h) hstrong
    have hnone := handleSubmit_weak email form response hs
    refine ⟨?_, fun h => absurd h.1 hstrong, fun _ => hnone, fun h => absurd h hstrong⟩
    rw [hnone]
    exact ⟨fun h => absurd rfl h, fun h => absurd h.1 hstrong⟩

/-- Concrete runs of the gate on the code units of `Abcdef1!`, `abcdef1!` and
`Abcdef1?`: a strong matching pair is posted, a weak password and a mismatch are
not. -/
theorem handleSubmit_examples :
    (handleSubmit "a@b.c"
        { otp := "123456", newPassword := [65, 98, 99, 100, 101, 102, 49, 33],
          confirmPassword := [65, 98, 99, 100, 101, 102, 49, 33], error := "", loading := false,
          success := false } (Except.ok ())).2
      = [{ email := "a@b.c", otp := "123456",
           newPassword := [65, 98, 99, 100, 101, 102, 49, 33] }]
    ∧ (handleSubmit "a@b.c"
        { otp := "123456", newPassword := [97, 98, 99, 100, 101, 102, 49, 33],
          confirmPassword := [97, 98, 99, 100, 101, 102, 49, 33], error := "", loading := false,
          success := false } (Except.ok ()))
      = ({ otp := "123456", newPassword := [97, 98, 99, 100, 101, 102, 49, 33],
           confirmPassword := [97, 98, 99, 100, 101, 102, 49, 33],
           error := "Password is not strong enough.", loading := false, success := false }, [])
    ∧ (handleSubmit "a@b.c"
        { otp := "123456", newPassword := [65, 98, 99, 100, 101, 102, 49, 33],
          confirmPassword := [65, 98, 99, 100, 101, 102, 49, 63], error := "", loading := false,
          success := false } (Except.ok ()))
      = ({ otp := "123456", newPassword := [65, 98, 99, 100, 101, 102, 49, 33],
           confirmPassword := [65, 98, 99, 100, 101, 102, 49, 63],
           error := "Passwords do not match.", loading := false, success := false }, []) := by
  decide

end AlumniEnc
